import Mathlib

/-!
Permafrost Engine: map text format and tile geometry.

A shallow embedding of `src/map/map_asset_load.c` (tile token parser, row and
chunk readers, size computation, map dump) and of `R_GL_VerticesFromTile` from
`src/render/render_gl.c`, together with theorems about them.

Conventions of the embedding:

* a C `char` is a Lean `Char` holding a byte value; a C string is the part of a
  character buffer before its first NUL (`c_str`), the end of the list acting
  as the terminator when no NUL is present;
* a `FILE*` opened for reading is the list of characters not yet consumed; a
  `FILE*` opened for writing is the list of characters written so far;
* a pointer into an array of tiles or vertices is the array, as a function from
  indices, together with an offset; every function that writes through a
  pointer returns the updated array;
* `int` values are mathematical integers (signed overflow is undefined in C and
  is outside the model); `size_t` and `unsigned` arithmetic wraps explicitly;
* `float` values are the exact rationals they denote (rounding is outside the
  model);
* macros, enumerators and struct sizes declared in headers are parameters,
  collected in the structures `MapConsts`, `TileTypes` and `RenderConsts`;
  functions of other modules and of the C library that the loader calls on
  files are parameters too, collected in `LoadEnv`.
-/

namespace Permafrost

/-! ## Data model -/

/-- The tile descriptor `struct tile` of `map/public/tile.h`, with the fields
that the sources read and write. `type` holds the integer value of the
`enum tiletype`. -/
structure Tile where
  type : Int
  pathable : Bool
  base_height : Int
  top_mat_idx : Int
  sides_mat_idx : Int
  ramp_height : Int
  deriving DecidableEq, Repr, Inhabited

/-- Constants of the map module declared in headers: the chunk dimensions in
tiles, the size of the line buffer, and the sizes of `struct map` and
`struct pfchunk`. -/
structure MapConsts where
  TILES_PER_CHUNK_WIDTH : Nat
  TILES_PER_CHUNK_HEIGHT : Nat
  MAX_LINE_LEN : Nat
  sizeof_map : Nat
  sizeof_pfchunk : Nat
  deriving DecidableEq, Repr

/-- The NUL character that terminates a C string. -/
def NUL : Char := Char.ofNat 0

/-- The C string held in a character buffer: the characters before the first
NUL. -/
def c_str (buff : List Char) : List Char :=
  buff.takeWhile (fun ch => ch != NUL)

/-- C `strlen`. -/
def strlen (str : List Char) : Nat :=
  (c_str str).length

/-- The value of a plain (signed, 8-bit) `char` as an `int`. -/
def char_val (ch : Char) : Int :=
  if ch.toNat < 128 then (ch.toNat : Int) else (ch.toNat : Int) - 256

/-- The expression `str[i] - '0'`. -/
def digit_at (str : List Char) (i : Nat) : Int :=
  char_val (str.getD i NUL) - char_val '0'

/-! ## `map_asset_load.c` -/

/-- `m_al_parse_tile(str, out)`: returns the success flag and the content of
`*out` afterwards. The cast to `bool` maps every nonzero value to `true`. -/
def m_al_parse_tile (str : List Char) (out : Tile) : Bool × Tile :=
  if strlen str ≠ 6 then
    (false, out)
  else
    (true,
      { type := digit_at str 0
        pathable := decide (digit_at str 1 ≠ 0)
        base_height := digit_at str 2
        top_mat_idx := digit_at str 3
        sides_mat_idx := digit_at str 4
        ramp_height := digit_at str 5 })

/-- C `fgets` restricted to its reading loop: reads at most `k` characters and
stops after a newline or at the end of the stream. Returns the characters read
and the rest of the stream. -/
def fgets_chars : Nat → List Char → List Char × List Char
  | 0, stream => ([], stream)
  | _ + 1, [] => ([], [])
  | k + 1, ch :: stream =>
    if ch = '\n' then ([ch], stream)
    else ((fgets_chars k stream).1.cons ch, (fgets_chars k stream).2)

/-- C `fgets(buff, n, file)`: `none` (a null pointer) at the end of the stream,
otherwise the buffer content before the terminating NUL and the rest of the
stream. -/
def fgets (n : Nat) (stream : List Char) : Option (List Char × List Char) :=
  match stream with
  | [] => none
  | _ :: _ => some (fgets_chars (n - 1) stream)

/-- The macro `READ_LINE(file, buff, fail_label)`: `none` stands for the jump to
the failure label. The assignment `buff[MAX_LINE_LEN - 1] = 0` cuts the buffer
at that position. -/
def READ_LINE (K : MapConsts) (stream : List Char) : Option (List Char × List Char) :=
  match fgets K.MAX_LINE_LEN stream with
  | none => none
  | some (buff, rest) => some (buff.take (K.MAX_LINE_LEN - 1), rest)

/-- Whether the character `ch` occurs in the delimiter string `delim`. -/
def is_delim (delim : List Char) (ch : Char) : Bool :=
  delim.contains ch

/-- POSIX `strtok_r(s, delim, &saveptr)`, with `s = none` for a null first
argument. Returns the token (`none` for a null pointer) and the new value of
`saveptr`; both strings are given by their characters up to the terminator. -/
def strtok_r (s : Option (List Char)) (delim : List Char) (saveptr : List Char) :
    Option (List Char) × List Char :=
  let start := match s with
    | some str => c_str str
    | none => saveptr
  match start.dropWhile (is_delim delim) with
  | [] => (none, [])
  | ch :: str =>
    (some ((ch :: str).takeWhile (fun x => !is_delim delim x)),
      ((ch :: str).dropWhile (fun x => !is_delim delim x)).drop 1)

/-- The delimiter string of `m_al_read_row`: space, tab, newline. -/
def row_delim : List Char := [' ', '\t', '\n']

/-- Store `t` at index `i` of an array of tiles. -/
def store_tile (tiles : Nat → Tile) (i : Nat) (t : Tile) : Nat → Tile :=
  fun j => if j = i then t else tiles j

/-- The `for` loop of `m_al_read_row` with `n` iterations left, at index `i`
(so that `i + n = TILES_PER_CHUNK_WIDTH`). `out` is the offset of the pointer
`out` in `tiles`. Returns whether the loop ran to its end (rather than jumping
to `fail`), the final value of `string`, and the array of tiles. -/
def m_al_read_row_loop (n i : Nat) (string : Option (List Char)) (saveptr : List Char)
    (tiles : Nat → Tile) (out : Nat) : Bool × Option (List Char) × (Nat → Tile) :=
  match n with
  | 0 => (true, string, tiles)
  | n + 1 =>
    match string with
    | none => (false, none, tiles)
    | some tok =>
      if (m_al_parse_tile tok (tiles (out + i))).1 = false then
        (false, string, store_tile tiles (out + i) (m_al_parse_tile tok (tiles (out + i))).2)
      else
        m_al_read_row_loop n (i + 1)
          (strtok_r none row_delim saveptr).1 (strtok_r none row_delim saveptr).2
          (store_tile tiles (out + i) (m_al_parse_tile tok (tiles (out + i))).2) out

/-- Result of a reader: the success flag, the stream after the call and the
array of tiles after the call. -/
structure ReadResult where
  ok : Bool
  stream : List Char
  tiles : Nat → Tile

/-- `m_al_read_row(stream, out)`, where the pointer `out` is offset `out` of
`tiles`. -/
def m_al_read_row (K : MapConsts) (stream : List Char) (tiles : Nat → Tile) (out : Nat) :
    ReadResult :=
  match READ_LINE K stream with
  | none => { ok := false, stream := stream, tiles := tiles }
  | some (line, rest) =>
    let loop := m_al_read_row_loop K.TILES_PER_CHUNK_WIDTH 0
      (strtok_r (some line) row_delim []).1 (strtok_r (some line) row_delim []).2 tiles out
    if loop.1 = false then
      { ok := false, stream := rest, tiles := loop.2.2 }
    else if loop.2.1 ≠ none then
      { ok := false, stream := rest, tiles := loop.2.2 }
    else
      { ok := true, stream := rest, tiles := loop.2.2 }

/-- The `for` loop of `m_al_read_pfchunk` with `n` iterations left, at row `i`
(so that `i + n = TILES_PER_CHUNK_HEIGHT`). `tiles` is the array `out->tiles`. -/
def m_al_read_pfchunk_loop (K : MapConsts) (n i : Nat) (stream : List Char)
    (tiles : Nat → Tile) : ReadResult :=
  match n with
  | 0 => { ok := true, stream := stream, tiles := tiles }
  | n + 1 =>
    if (m_al_read_row K stream tiles (i * K.TILES_PER_CHUNK_WIDTH)).ok = false then
      { m_al_read_row K stream tiles (i * K.TILES_PER_CHUNK_WIDTH) with ok := false }
    else
      m_al_read_pfchunk_loop K n (i + 1)
        (m_al_read_row K stream tiles (i * K.TILES_PER_CHUNK_WIDTH)).stream
        (m_al_read_row K stream tiles (i * K.TILES_PER_CHUNK_WIDTH)).tiles

/-- `m_al_read_pfchunk(stream, out)`, on the tile array of the chunk `out`. -/
def m_al_read_pfchunk (K : MapConsts) (stream : List Char) (tiles : Nat → Tile) : ReadResult :=
  m_al_read_pfchunk_loop K K.TILES_PER_CHUNK_HEIGHT 0 stream tiles

/-- The fields of `struct map` that `M_AL_DumpMap` reads: the dimensions in
chunks and, for chunk `i`, its tile array `chunks i`. -/
structure Map where
  width : Int
  height : Int
  chunks : Nat → Nat → Tile

/-- C `fprintf(stream, fmt, args...)` for formats whose only conversion is
`%c`: each `%c` consumes one argument and writes it converted to
`unsigned char`; arguments in excess of the conversions are ignored. Returns
the characters written. -/
def fprintf : List Char → List Int → List Char
  | [], _ => []
  | '%' :: 'c' :: fmt, a :: args => Char.ofNat (a % 256).toNat :: fprintf fmt args
  | ch :: fmt, args => ch :: fprintf fmt args

/-- The conversion `(char) v` of an `int` to a signed 8-bit `char`. -/
def to_char (v : Int) : Int :=
  (v + 128) % 256 - 128

/-- The conversion of a `bool` to an integer. -/
def bool_val (b : Bool) : Int :=
  if b then 1 else 0

/-- The body of the innermost loop of `M_AL_DumpMap`: what is written for the
tile in column `c`. -/
def M_AL_DumpMap_tile (K : MapConsts) (tile : Tile) (c : Nat) : List Char :=
  fprintf "%c%c%c%c%c".toList
      [to_char tile.type + char_val '0',
       to_char (bool_val tile.pathable) + char_val '0',
       to_char tile.base_height + char_val '0',
       to_char tile.top_mat_idx + char_val '0',
       to_char tile.sides_mat_idx + char_val '0',
       to_char tile.ramp_height + char_val '0']
    ++ (if (c : Int) ≠ (K.TILES_PER_CHUNK_WIDTH : Int) - 1 then fprintf " ".toList [] else [])

/-- The loop over the rows `r` of one chunk in `M_AL_DumpMap`. -/
def M_AL_DumpMap_chunk (K : MapConsts) (curr : Nat → Tile) : List Char :=
  (List.range K.TILES_PER_CHUNK_HEIGHT).foldl
    (fun written r =>
      (List.range K.TILES_PER_CHUNK_WIDTH).foldl
          (fun written c =>
            written ++ M_AL_DumpMap_tile K (curr (r * K.TILES_PER_CHUNK_WIDTH + c)) c)
          written
        ++ fprintf "\n".toList [])
    []

/-- `M_AL_DumpMap(stream, map)`: the characters written to `stream`. -/
def M_AL_DumpMap (K : MapConsts) (map : Map) : List Char :=
  (List.range (map.width * map.height).toNat).foldl
    (fun written i => written ++ M_AL_DumpMap_chunk K (map.chunks i))
    []

/-- The fields of `struct pfmap_hdr` (declared in `asset_load.h`) that
`map_asset_load.c` reads, taken to be of type `unsigned`, and, in `others`, the
remaining content of the header, which `map_asset_load.c` never reads. -/
structure pfmap_hdr where
  num_materials : Nat
  num_rows : Nat
  num_cols : Nat
  others : List Nat
  deriving DecidableEq, Repr

/-- Number of values of the type `unsigned` (32 bits). -/
def UINT_RANGE : Nat := 2 ^ 32

/-- Number of values of the type `size_t` (64 bits). -/
def SIZE_RANGE : Nat := 2 ^ 64

/-- `M_AL_BuffSizeFromHeader(header)`. The function `R_AL_PrivBuffSizeForChunk`
of the render module is a parameter. The product of the two header fields is
computed in `unsigned` arithmetic, the rest in `size_t` arithmetic. -/
def M_AL_BuffSizeFromHeader (K : MapConsts) (R_AL_PrivBuffSizeForChunk : Nat → Nat → Nat → Nat)
    (header : pfmap_hdr) : Nat :=
  let num_chunks := (header.num_rows * header.num_cols) % UINT_RANGE
  (K.sizeof_map % SIZE_RANGE
    + (num_chunks
        * ((K.sizeof_pfchunk % SIZE_RANGE
            + R_AL_PrivBuffSizeForChunk K.TILES_PER_CHUNK_WIDTH K.TILES_PER_CHUNK_HEIGHT
                header.num_materials % SIZE_RANGE) % SIZE_RANGE)) % SIZE_RANGE) % SIZE_RANGE

/-! ### Specification-side notions for the text format -/

/-- The character of the decimal digit `d`. -/
def digit_char (d : Nat) : Char :=
  Char.ofNat (d + 48)

/-- Specification of tokenisation: the text is cut at every delimiter
character and the empty pieces are dropped. -/
def split_tokens (delim : List Char) (text : List Char) : List (List Char) :=
  (text.splitOnP (is_delim delim)).filter (fun tok => !tok.isEmpty)

/-- Specification of a text line: the first line of a stream, up to and
including its newline character, or up to the end of the stream when no
newline is left. -/
def first_line : List Char → List Char
  | [] => []
  | ch :: stream => if ch = '\n' then [ch] else ch :: first_line stream

/-- The stream after its first `n` lines. -/
def drop_lines : Nat → List Char → List Char
  | 0, stream => stream
  | n + 1, stream => drop_lines n (stream.drop (first_line stream).length)

/-- The line number `k` (from 0) of a stream; empty when the stream has no
such line. -/
def nth_line (stream : List Char) (k : Nat) : List Char :=
  first_line (drop_lines k stream)

/-- The tile that a token decodes to: the output of `m_al_parse_tile`. -/
def decode_tile (tok : List Char) : Tile :=
  (m_al_parse_tile tok default).2

/-- Specification of an accepted row: the line exists and splits, on spaces,
tabs and newlines, into exactly `TILES_PER_CHUNK_WIDTH` tokens, each of which
`m_al_parse_tile` accepts. -/
def row_accepted (K : MapConsts) (line : List Char) : Prop :=
  line ≠ [] ∧ (split_tokens row_delim line).length = K.TILES_PER_CHUNK_WIDTH
    ∧ ∀ tok ∈ split_tokens row_delim line, (m_al_parse_tile tok default).1 = true

/-! ## `render_gl.c`: tile geometry -/

/-- The type `vec3_t`. -/
structure vec3_t where
  x : ℚ
  y : ℚ
  z : ℚ
  deriving DecidableEq, Repr, Inhabited

/-- The type `vec2_t`: the texture coordinates `(u, v)`. -/
structure vec2_t where
  x : ℚ
  y : ℚ
  deriving DecidableEq, Repr, Inhabited

/-- The vertex record `struct vertex`; `joint_indices` and `weights` are arrays
of four elements (the vertex attribute setup of `render_gl.c` declares four
components for each). -/
structure vertex where
  pos : vec3_t
  uv : vec2_t
  normal : vec3_t
  material_idx : Int
  joint_indices : List Int
  weights : List ℚ
  deriving DecidableEq, Repr, Inhabited

/-- The local type `struct face` of `R_GL_VerticesFromTile`. -/
structure face where
  nw : vertex
  ne : vertex
  se : vertex
  sw : vertex
  deriving DecidableEq, Repr, Inhabited

/-- The values of the enumerators of `enum tiletype` (declared in
`map/public/tile.h`). -/
structure TileTypes where
  TILETYPE_FLAT : Int
  TILETYPE_RAMP_SN : Int
  TILETYPE_RAMP_NS : Int
  TILETYPE_RAMP_EW : Int
  TILETYPE_RAMP_WE : Int
  TILETYPE_CORNER_CONCAVE_SW : Int
  TILETYPE_CORNER_CONVEX_SW : Int
  TILETYPE_CORNER_CONCAVE_SE : Int
  TILETYPE_CORNER_CONVEX_SE : Int
  TILETYPE_CORNER_CONCAVE_NW : Int
  TILETYPE_CORNER_CONVEX_NW : Int
  TILETYPE_CORNER_CONCAVE_NE : Int
  TILETYPE_CORNER_CONVEX_NE : Int
  deriving DecidableEq, Repr

/-- The world-space extents of a tile (declared in `map/public/tile.h`). -/
structure RenderConsts where
  X_COORDS_PER_TILE : ℚ
  Y_COORDS_PER_TILE : ℚ
  Z_COORDS_PER_TILE : ℚ
  deriving DecidableEq, Repr

/-- Modelled from the spec: the macro `VERTS_PER_FACE` is declared in a header
that is not among the sources; the spec fixes six vertices per face (two
triangles of three vertices). -/
def VERTS_PER_FACE : Nat := 6

/-- The local `struct face bot` of `R_GL_VerticesFromTile`. -/
def bot (R : RenderConsts) (tile : Tile) (r c : Nat) : face :=
  { nw :=
      { pos := ⟨0 - ((c + 1) * R.X_COORDS_PER_TILE), -1 * R.Y_COORDS_PER_TILE, 0 + (r * R.Z_COORDS_PER_TILE)⟩
        uv := ⟨0, 1⟩
        normal := ⟨0, -1, 0⟩
        material_idx := tile.top_mat_idx
        joint_indices := [0, 0, 0, 0]
        weights := [0, 0, 0, 0] }
    ne :=
      { pos := ⟨0 - (c * R.X_COORDS_PER_TILE), -1 * R.Y_COORDS_PER_TILE, 0 + (r * R.Z_COORDS_PER_TILE)⟩
        uv := ⟨1, 1⟩
        normal := ⟨0, -1, 0⟩
        material_idx := tile.top_mat_idx
        joint_indices := [0, 0, 0, 0]
        weights := [0, 0, 0, 0] }
    se :=
      { pos := ⟨0 - (c * R.X_COORDS_PER_TILE), -1 * R.Y_COORDS_PER_TILE, 0 + ((r + 1) * R.Z_COORDS_PER_TILE)⟩
        uv := ⟨1, 0⟩
        normal := ⟨0, -1, 0⟩
        material_idx := tile.top_mat_idx
        joint_indices := [0, 0, 0, 0]
        weights := [0, 0, 0, 0] }
    sw :=
      { pos := ⟨0 - ((c + 1) * R.X_COORDS_PER_TILE), -1 * R.Y_COORDS_PER_TILE, 0 + ((r + 1) * R.Z_COORDS_PER_TILE)⟩
        uv := ⟨0, 0⟩
        normal := ⟨0, -1, 0⟩
        material_idx := tile.top_mat_idx
        joint_indices := [0, 0, 0, 0]
        weights := [0, 0, 0, 0] } }
/-- The local `top_nw_raised` of `R_GL_VerticesFromTile`. -/
def top_nw_raised (E : TileTypes) (tile : Tile) : Bool :=
  (tile.type == E.TILETYPE_RAMP_SN)
    || (tile.type == E.TILETYPE_RAMP_EW)
    || (tile.type == E.TILETYPE_CORNER_CONVEX_SW)
    || (tile.type == E.TILETYPE_CORNER_CONVEX_SE)
    || (tile.type == E.TILETYPE_CORNER_CONCAVE_SE)

/-- The local `top_ne_raised` of `R_GL_VerticesFromTile`. -/
def top_ne_raised (E : TileTypes) (tile : Tile) : Bool :=
  (tile.type == E.TILETYPE_RAMP_SN)
    || (tile.type == E.TILETYPE_RAMP_WE)
    || (tile.type == E.TILETYPE_CORNER_CONVEX_SW)
    || (tile.type == E.TILETYPE_CORNER_CONCAVE_SW)
    || (tile.type == E.TILETYPE_CORNER_CONVEX_SE)

/-- The local `top_sw_raised` of `R_GL_VerticesFromTile`. -/
def top_sw_raised (E : TileTypes) (tile : Tile) : Bool :=
  (tile.type == E.TILETYPE_RAMP_NS)
    || (tile.type == E.TILETYPE_RAMP_EW)
    || (tile.type == E.TILETYPE_CORNER_CONVEX_SE)

/-- The local `top_se_raised` of `R_GL_VerticesFromTile`. -/
def top_se_raised (E : TileTypes) (tile : Tile) : Bool :=
  (tile.type == E.TILETYPE_RAMP_NS)
    || (tile.type == E.TILETYPE_RAMP_WE)
    || (tile.type == E.TILETYPE_CORNER_CONVEX_SW)

/-- The local `struct face top` of `R_GL_VerticesFromTile`. -/
def top (R : RenderConsts) (E : TileTypes) (tile : Tile) (r c : Nat) : face :=
  { nw :=
      { pos := ⟨0 - (c * R.X_COORDS_PER_TILE),
          (tile.base_height * R.Y_COORDS_PER_TILE) + (R.Y_COORDS_PER_TILE * (if top_nw_raised E tile then (tile.ramp_height : ℚ) else 0)),
          0 + (r * R.Z_COORDS_PER_TILE)⟩
        uv := ⟨0, 1⟩
        normal := ⟨0, 1, 0⟩
        material_idx := tile.top_mat_idx
        joint_indices := [0, 0, 0, 0]
        weights := [0, 0, 0, 0] }
    ne :=
      { pos := ⟨0 - ((c + 1) * R.X_COORDS_PER_TILE),
          (tile.base_height * R.Y_COORDS_PER_TILE) + (R.Y_COORDS_PER_TILE * (if top_ne_raised E tile then (tile.ramp_height : ℚ) else 0)),
          0 + (r * R.Z_COORDS_PER_TILE)⟩
        uv := ⟨1, 1⟩
        normal := ⟨0, 1, 0⟩
        material_idx := tile.top_mat_idx
        joint_indices := [0, 0, 0, 0]
        weights := [0, 0, 0, 0] }
    se :=
      { pos := ⟨0 - ((c + 1) * R.X_COORDS_PER_TILE),
          (tile.base_height * R.Y_COORDS_PER_TILE) + (R.Y_COORDS_PER_TILE * (if top_se_raised E tile then (tile.ramp_height : ℚ) else 0)),
          0 + ((r + 1) * R.Z_COORDS_PER_TILE)⟩
        uv := ⟨1, 0⟩
        normal := ⟨0, 1, 0⟩
        material_idx := tile.top_mat_idx
        joint_indices := [0, 0, 0, 0]
        weights := [0, 0, 0, 0] }
    sw :=
      { pos := ⟨0 - (c * R.X_COORDS_PER_TILE),
          (tile.base_height * R.Y_COORDS_PER_TILE) + (R.Y_COORDS_PER_TILE * (if top_sw_raised E tile then (tile.ramp_height : ℚ) else 0)),
          0 + ((r + 1) * R.Z_COORDS_PER_TILE)⟩
        uv := ⟨0, 0⟩
        normal := ⟨0, 1, 0⟩
        material_idx := tile.top_mat_idx
        joint_indices := [0, 0, 0, 0]
        weights := [0, 0, 0, 0] } }
/-- The macro `V_COORD(width, height)`. -/
def V_COORD (width height : ℚ) : ℚ :=
  height / width

/-- The local `struct face back` of `R_GL_VerticesFromTile`. The expression
`back.nw.pos.y` in the initializer of `back.nw.uv` reads the member `pos`
initialised just before it, and likewise for `ne`. -/
def back (R : RenderConsts) (E : TileTypes) (tile : Tile) (r c : Nat) : face :=
  { nw :=
      { pos := (top R E tile r c).nw.pos
        uv := ⟨0, V_COORD R.X_COORDS_PER_TILE (top R E tile r c).nw.pos.y⟩
        normal := ⟨0, 0, -1⟩
        material_idx := tile.sides_mat_idx
        joint_indices := [0, 0, 0, 0]
        weights := [0, 0, 0, 0] }
    ne :=
      { pos := (top R E tile r c).ne.pos
        uv := ⟨1, V_COORD R.X_COORDS_PER_TILE (top R E tile r c).ne.pos.y⟩
        normal := ⟨0, 0, -1⟩
        material_idx := tile.sides_mat_idx
        joint_indices := [0, 0, 0, 0]
        weights := [0, 0, 0, 0] }
    se :=
      { pos := (bot R tile r c).nw.pos
        uv := ⟨1, 0⟩
        normal := ⟨0, 0, -1⟩
        material_idx := tile.sides_mat_idx
        joint_indices := [0, 0, 0, 0]
        weights := [0, 0, 0, 0] }
    sw :=
      { pos := (bot R tile r c).ne.pos
        uv := ⟨0, 0⟩
        normal := ⟨0, 0, -1⟩
        material_idx := tile.sides_mat_idx
        joint_indices := [0, 0, 0, 0]
        weights := [0, 0, 0, 0] } }

/-- The local `struct face front` of `R_GL_VerticesFromTile`. The expression
`front.nw.pos.y` in the initializer of `front.nw.uv` reads the member `pos`
initialised just before it, and likewise for `ne`. -/
def front (R : RenderConsts) (E : TileTypes) (tile : Tile) (r c : Nat) : face :=
  { nw :=
      { pos := (top R E tile r c).sw.pos
        uv := ⟨0, V_COORD R.X_COORDS_PER_TILE (top R E tile r c).sw.pos.y⟩
        normal := ⟨0, 0, 1⟩
        material_idx := tile.sides_mat_idx
        joint_indices := [0, 0, 0, 0]
        weights := [0, 0, 0, 0] }
    ne :=
      { pos := (top R E tile r c).se.pos
        uv := ⟨1, V_COORD R.X_COORDS_PER_TILE (top R E tile r c).se.pos.y⟩
        normal := ⟨0, 0, 1⟩
        material_idx := tile.sides_mat_idx
        joint_indices := [0, 0, 0, 0]
        weights := [0, 0, 0, 0] }
    se :=
      { pos := (bot R tile r c).sw.pos
        uv := ⟨1, 0⟩
        normal := ⟨0, 0, 1⟩
        material_idx := tile.sides_mat_idx
        joint_indices := [0, 0, 0, 0]
        weights := [0, 0, 0, 0] }
    sw :=
      { pos := (bot R tile r c).se.pos
        uv := ⟨0, 0⟩
        normal := ⟨0, 0, 1⟩
        material_idx := tile.sides_mat_idx
        joint_indices := [0, 0, 0, 0]
        weights := [0, 0, 0, 0] } }

/-- The local `struct face left` of `R_GL_VerticesFromTile`. The expression
`left.nw.pos.y` in the initializer of `left.nw.uv` reads the member `pos`
initialised just before it, and likewise for `ne`. -/
def left (R : RenderConsts) (E : TileTypes) (tile : Tile) (r c : Nat) : face :=
  { nw :=
      { pos := (top R E tile r c).sw.pos
        uv := ⟨0, V_COORD R.X_COORDS_PER_TILE (top R E tile r c).sw.pos.y⟩
        normal := ⟨1, 0, 0⟩
        material_idx := tile.sides_mat_idx
        joint_indices := [0, 0, 0, 0]
        weights := [0, 0, 0, 0] }
    ne :=
      { pos := (top R E tile r c).nw.pos
        uv := ⟨1, V_COORD R.X_COORDS_PER_TILE (top R E tile r c).nw.pos.y⟩
        normal := ⟨1, 0, 0⟩
        material_idx := tile.sides_mat_idx
        joint_indices := [0, 0, 0, 0]
        weights := [0, 0, 0, 0] }
    se :=
      { pos := (bot R tile r c).ne.pos
        uv := ⟨1, 0⟩
        normal := ⟨1, 0, 0⟩
        material_idx := tile.sides_mat_idx
        joint_indices := [0, 0, 0, 0]
        weights := [0, 0, 0, 0] }
    sw :=
      { pos := (bot R tile r c).se.pos
        uv := ⟨0, 0⟩
        normal := ⟨1, 0, 0⟩
        material_idx := tile.sides_mat_idx
        joint_indices := [0, 0, 0, 0]
        weights := [0, 0, 0, 0] } }

/-- The local `struct face right` of `R_GL_VerticesFromTile`. The expression
`right.nw.pos.y` in the initializer of `right.nw.uv` reads the member `pos`
initialised just before it, and likewise for `ne`. -/
def right (R : RenderConsts) (E : TileTypes) (tile : Tile) (r c : Nat) : face :=
  { nw :=
      { pos := (top R E tile r c).ne.pos
        uv := ⟨0, V_COORD R.X_COORDS_PER_TILE (top R E tile r c).ne.pos.y⟩
        normal := ⟨-1, 0, 0⟩
        material_idx := tile.sides_mat_idx
        joint_indices := [0, 0, 0, 0]
        weights := [0, 0, 0, 0] }
    ne :=
      { pos := (top R E tile r c).se.pos
        uv := ⟨1, V_COORD R.X_COORDS_PER_TILE (top R E tile r c).se.pos.y⟩
        normal := ⟨-1, 0, 0⟩
        material_idx := tile.sides_mat_idx
        joint_indices := [0, 0, 0, 0]
        weights := [0, 0, 0, 0] }
    se :=
      { pos := (bot R tile r c).sw.pos
        uv := ⟨1, 0⟩
        normal := ⟨-1, 0, 0⟩
        material_idx := tile.sides_mat_idx
        joint_indices := [0, 0, 0, 0]
        weights := [0, 0, 0, 0] }
    sw :=
      { pos := (bot R tile r c).nw.pos
        uv := ⟨0, 0⟩
        normal := ⟨-1, 0, 0⟩
        material_idx := tile.sides_mat_idx
        joint_indices := [0, 0, 0, 0]
        weights := [0, 0, 0, 0] } }
/-- The local array `faces` of `R_GL_VerticesFromTile`. -/
def faces (R : RenderConsts) (E : TileTypes) (tile : Tile) (r c : Nat) : List face :=
  [top R E tile r c, bot R tile r c, front R E tile r c, back R E tile r c,
   left R E tile r c, right R E tile r c]

/-- The six `memcpy` calls of one iteration of the final loop of
`R_GL_VerticesFromTile`, each as the index written in `out` and the vertex
copied there. -/
def face_memcpys (i : Nat) (curr : face) : List (Nat × vertex) :=
  [(i * VERTS_PER_FACE + 0, curr.nw),
   (i * VERTS_PER_FACE + 1, curr.ne),
   (i * VERTS_PER_FACE + 2, curr.sw),
   (i * VERTS_PER_FACE + 3, curr.se),
   (i * VERTS_PER_FACE + 4, curr.sw),
   (i * VERTS_PER_FACE + 5, curr.ne)]

/-- The sequence of all `memcpy` calls made by `R_GL_VerticesFromTile`, in
program order. -/
def R_GL_VerticesFromTile_memcpys (R : RenderConsts) (E : TileTypes) (tile : Tile)
    (r c : Nat) : List (Nat × vertex) :=
  (List.range (faces R E tile r c).length).foldl
    (fun done i => done ++ face_memcpys i ((faces R E tile r c).getD i default))
    []

/-- Store `v` at index `i` of an array of vertices. -/
def store_vertex (out : Nat → vertex) (i : Nat) (v : vertex) : Nat → vertex :=
  fun j => if j = i then v else out j

/-- `R_GL_VerticesFromTile(tile, out, r, c)`: the array `out` afterwards. -/
def R_GL_VerticesFromTile (R : RenderConsts) (E : TileTypes) (tile : Tile)
    (out : Nat → vertex) (r c : Nat) : Nat → vertex :=
  (R_GL_VerticesFromTile_memcpys R E tile r c).foldl
    (fun out w => store_vertex out w.1 w.2)
    out

/-! ### Specification-side notions for the geometry -/

/-- The vertices `out[6 i .. 6 i + 5]` are the corners of the face `f` in the
order NW, NE, SW, then SE, SW, NE. -/
def emitted_at (out : Nat → vertex) (i : Nat) (f : face) : Prop :=
  out (6 * i) = f.nw ∧ out (6 * i + 1) = f.ne ∧ out (6 * i + 2) = f.sw
    ∧ out (6 * i + 3) = f.se ∧ out (6 * i + 4) = f.sw ∧ out (6 * i + 5) = f.ne

/-- Specification of the height of a top-face corner: `base_height *
Y_COORDS_PER_TILE`, plus `ramp_height * Y_COORDS_PER_TILE` when the corner is
raised. -/
def corner_height (R : RenderConsts) (tile : Tile) (raised : Bool) : ℚ :=
  tile.base_height * R.Y_COORDS_PER_TILE
    + (if raised then tile.ramp_height * R.Y_COORDS_PER_TILE else 0)

/-! ### Notions used to describe the readers -/

/-- The tokens still to come in `m_al_read_row`: the token held in `string`, if
any, followed by the tokens of the text at `saveptr`. -/
def pending_tokens (string : Option (List Char)) (saveptr : List Char) : List (List Char) :=
  match string with
  | none => []
  | some tok => tok :: split_tokens row_delim saveptr

/-- The text that one call of `m_al_read_row` tokenises: the C string left in
the line buffer by `READ_LINE` (empty at the end of the stream). -/
def row_line (K : MapConsts) (stream : List Char) : List Char :=
  match READ_LINE K stream with
  | none => []
  | some (line, _) => c_str line

/-- The stream after one call of `READ_LINE`. -/
def row_rest (K : MapConsts) (stream : List Char) : List Char :=
  match READ_LINE K stream with
  | none => stream
  | some (_, rest) => rest

/-- The stream after `n` consecutive calls of `READ_LINE`. -/
def after_rows (K : MapConsts) : Nat → List Char → List Char
  | 0, stream => stream
  | n + 1, stream => after_rows K n (row_rest K stream)

/-- A row can be read at the head of `stream`: the stream is not exhausted and
the text read into the line buffer splits, on spaces, tabs and newlines, into
exactly `TILES_PER_CHUNK_WIDTH` tokens, each of which `m_al_parse_tile`
accepts. -/
def row_ok (K : MapConsts) (stream : List Char) : Prop :=
  stream ≠ [] ∧ (split_tokens row_delim (row_line K stream)).length = K.TILES_PER_CHUNK_WIDTH
    ∧ ∀ tok ∈ split_tokens row_delim (row_line K stream), (m_al_parse_tile tok default).1 = true

/-- Every field of the tile is in the range of one decimal digit. -/
def tile_in_range (t : Tile) : Prop :=
  (0 ≤ t.type ∧ t.type ≤ 9) ∧ (0 ≤ t.base_height ∧ t.base_height ≤ 9)
    ∧ (0 ≤ t.top_mat_idx ∧ t.top_mat_idx ≤ 9) ∧ (0 ≤ t.sides_mat_idx ∧ t.sides_mat_idx ≤ 9)
    ∧ (0 ≤ t.ramp_height ∧ t.ramp_height ≤ 9)

/-- A character that is neither a row delimiter nor NUL. -/
def plain_char (ch : Char) : Prop :=
  is_delim row_delim ch = false ∧ ch ≠ NUL

/-! ### Sample inputs -/

/-- Sample constants: chunks of 2 by 2 tiles, a line buffer of 64 characters. -/
def sample_consts : MapConsts :=
  { TILES_PER_CHUNK_WIDTH := 2
    TILES_PER_CHUNK_HEIGHT := 2
    MAX_LINE_LEN := 64
    sizeof_map := 32
    sizeof_pfchunk := 104 }

/-- Sample tile: type 1, pathable, base height 2, materials 3 and 4, ramp
height 5; its token is `112345`. -/
def sample_tile : Tile :=
  { type := 1, pathable := true, base_height := 2, top_mat_idx := 3, sides_mat_idx := 4,
    ramp_height := 5 }

/-- Sample map: one chunk, all of whose tiles are `sample_tile`. -/
def sample_map : Map :=
  { width := 1, height := 1, chunks := fun _ _ => sample_tile }

/-- Sample sizing function standing for `R_AL_PrivBuffSizeForChunk`. -/
def sample_priv_size (width height num_mats : Nat) : Nat :=
  width * height * 36 * 72 + num_mats * 28 + 16

/-- The values of the thirteen enumerators of `enum tiletype`. -/
def tiletype_values (E : TileTypes) : List Int :=
  [E.TILETYPE_FLAT, E.TILETYPE_RAMP_SN, E.TILETYPE_RAMP_NS, E.TILETYPE_RAMP_EW,
   E.TILETYPE_RAMP_WE, E.TILETYPE_CORNER_CONCAVE_SW, E.TILETYPE_CORNER_CONVEX_SW,
   E.TILETYPE_CORNER_CONCAVE_SE, E.TILETYPE_CORNER_CONVEX_SE, E.TILETYPE_CORNER_CONCAVE_NW,
   E.TILETYPE_CORNER_CONVEX_NW, E.TILETYPE_CORNER_CONCAVE_NE, E.TILETYPE_CORNER_CONVEX_NE]

/-- The enumerators of `enum tiletype` have pairwise different values. -/
def tiletypes_distinct (E : TileTypes) : Prop :=
  (tiletype_values E).Nodup

/-- The heights of the four top-face corners of a tile, in the order NW, NE,
SW, SE. -/
def top_heights (R : RenderConsts) (E : TileTypes) (tile : Tile) (r c : Nat) : ℚ × ℚ × ℚ × ℚ :=
  ((top R E tile r c).nw.pos.y, (top R E tile r c).ne.pos.y, (top R E tile r c).sw.pos.y,
    (top R E tile r c).se.pos.y)

/-- Sample enumerator values: the thirteen tile types numbered from 0 in the
order of `TileTypes`. -/
def sample_types : TileTypes :=
  ⟨0, 1, 2, 3, 4, 5, 6, 7, 8, 9, 10, 11, 12⟩

/-- Sample tile extents: 8 by 4 by 8. -/
def sample_extents : RenderConsts :=
  ⟨8, 4, 8⟩

/-- The raised-corner flags (NW, NE, SW, SE) that the four predicates of
`R_GL_VerticesFromTile` give to the tile type number `k` in the order of
`tiletype_values`. -/
def raised_flags (k : Nat) : Bool × Bool × Bool × Bool :=
  (decide (k = 1) || decide (k = 3) || decide (k = 6) || decide (k = 8) || decide (k = 7),
    decide (k = 1) || decide (k = 4) || decide (k = 6) || decide (k = 5) || decide (k = 8),
    decide (k = 2) || decide (k = 3) || decide (k = 8),
    decide (k = 2) || decide (k = 4) || decide (k = 6))

/-- Sample tiles of height 2 and ramp height 3: a ramp `RAMP_NS`, a corner
`CORNER_CONVEX_SW`, a flat tile and a corner `CORNER_CONVEX_NW`, typed by
`sample_types`. -/
def sample_ramp_ns : Tile :=
  { type := 2, pathable := true, base_height := 2, top_mat_idx := 0, sides_mat_idx := 1,
    ramp_height := 3 }

/-- See `sample_ramp_ns`. -/
def sample_convex_sw : Tile :=
  { type := 6, pathable := true, base_height := 2, top_mat_idx := 0, sides_mat_idx := 1,
    ramp_height := 3 }

/-- See `sample_ramp_ns`. -/
def sample_flat : Tile :=
  { type := 0, pathable := true, base_height := 2, top_mat_idx := 0, sides_mat_idx := 1,
    ramp_height := 3 }

/-- See `sample_ramp_ns`. -/
def sample_convex_nw : Tile :=
  { type := 10, pathable := true, base_height := 2, top_mat_idx := 0, sides_mat_idx := 1,
    ramp_height := 3 }

/-- The four edges of the top face, each as the positions of its two end
corners: north (NW, NE), east (NE, SE), south (SE, SW) and west (SW, NW). -/
def top_edges (R : RenderConsts) (E : TileTypes) (tile : Tile) (r c : Nat) :
    List (vec3_t × vec3_t) :=
  [((top R E tile r c).nw.pos, (top R E tile r c).ne.pos),
   ((top R E tile r c).ne.pos, (top R E tile r c).se.pos),
   ((top R E tile r c).se.pos, (top R E tile r c).sw.pos),
   ((top R E tile r c).sw.pos, (top R E tile r c).nw.pos)]

/-- The positions of the four corners of the bottom face. -/
def bot_corners (R : RenderConsts) (tile : Tile) (r c : Nat) : List vec3_t :=
  [(bot R tile r c).nw.pos, (bot R tile r c).ne.pos, (bot R tile r c).se.pos,
   (bot R tile r c).sw.pos]

/-- Specification of a wall: the upper corners `nw`, `ne` of the face are the
two ends of an edge of the top face (in either direction), and the lower
corners `sw`, `se` are corners of the bottom face with the same `x` and `z` as
the upper corner above them, `sw` under `nw` and `se` under `ne`. -/
def is_wall (R : RenderConsts) (E : TileTypes) (tile : Tile) (r c : Nat) (f : face) : Prop :=
  ((f.nw.pos, f.ne.pos) ∈ top_edges R E tile r c ∨ (f.ne.pos, f.nw.pos) ∈ top_edges R E tile r c)
    ∧ f.sw.pos ∈ bot_corners R tile r c ∧ f.se.pos ∈ bot_corners R tile r c
    ∧ (f.sw.pos.x = f.nw.pos.x ∧ f.sw.pos.z = f.nw.pos.z)
    ∧ (f.se.pos.x = f.ne.pos.x ∧ f.se.pos.z = f.ne.pos.z)

/-- Specification of the texture coordinates of a wall: at the upper corners
`u` is 0 at `nw` and 1 at `ne`, and `v` is the height of the corner divided by
`X_COORDS_PER_TILE`; at the lower corners `v` is 0. -/
def wall_uv (R : RenderConsts) (f : face) : Prop :=
  f.nw.uv = ⟨0, f.nw.pos.y / R.X_COORDS_PER_TILE⟩
    ∧ f.ne.uv = ⟨1, f.ne.pos.y / R.X_COORDS_PER_TILE⟩
    ∧ f.sw.uv.y = 0 ∧ f.se.uv.y = 0

/-! ## `map_asset_load.c`: `M_AL_InitMapFromStream` -/

/-- The content of the block `outmap` that `M_AL_InitMapFromStream` writes: the
fields `width`, `height`, `pos` of `struct map`, the tiles `chunks[i].tiles[j]`
and the pointers `chunks[i].render_private`, each pointer being held as its
byte offset from the start of the block. -/
structure map_block where
  width : Nat
  height : Nat
  pos : vec3_t
  tiles : Nat → Nat → Tile
  render_private : Nat → Nat

/-- The collaborators of `M_AL_InitMapFromStream`: the sizing function of the
render module, whether the `fopen` of the material file succeeds in iteration
`i`, and the result of `R_AL_InitPrivFromTilesAndMats` as a function of the
number of materials, the tiles of the chunk and the offset of its private
buffer. -/
structure LoadEnv where
  R_AL_PrivBuffSizeForChunk : Nat → Nat → Nat → Nat
  fopen_ok : Nat → Bool
  R_AL_InitPrivFromTilesAndMats : Nat → (Nat → Tile) → Nat → Bool

/-- Result of `M_AL_InitMapFromStream`: the value returned, the stream and the
block afterwards, and the number of iterations of the loop that were entered,
which is the number of chunks whose `render_private` was assigned. -/
structure InitResult where
  ok : Bool
  stream : List Char
  map : map_block
  entered : Nat

/-- The `for` loop of `M_AL_InitMapFromStream` with `n` iterations left, at
chunk `i` (so that `i + n = num_chunks`); `unused_base` is held as a byte
offset from the start of the block. -/
def M_AL_InitMapFromStream_loop (K : MapConsts) (env : LoadEnv) (header : pfmap_hdr)
    (renderbuff_sz : Nat) (n i : Nat) (unused_base : Nat) (stream : List Char)
    (map : map_block) : InitResult :=
  match n with
  | 0 => { ok := true, stream := stream, map := map, entered := i }
  | n + 1 =>
    if (m_al_read_pfchunk K stream (map.tiles i)).ok = false then
      { ok := false
        stream := (m_al_read_pfchunk K stream (map.tiles i)).stream
        map :=
          { map with
            render_private := fun j => if j = i then unused_base else map.render_private j
            tiles := fun j =>
              if j = i then (m_al_read_pfchunk K stream (map.tiles i)).tiles else map.tiles j }
        entered := i + 1 }
    else if env.fopen_ok i = false then
      { ok := false
        stream := (m_al_read_pfchunk K stream (map.tiles i)).stream
        map :=
          { map with
            render_private := fun j => if j = i then unused_base else map.render_private j
            tiles := fun j =>
              if j = i then (m_al_read_pfchunk K stream (map.tiles i)).tiles else map.tiles j }
        entered := i + 1 }
    else if env.R_AL_InitPrivFromTilesAndMats header.num_materials
        (m_al_read_pfchunk K stream (map.tiles i)).tiles unused_base = false then
      { ok := false
        stream := (m_al_read_pfchunk K stream (map.tiles i)).stream
        map :=
          { map with
            render_private := fun j => if j = i then unused_base else map.render_private j
            tiles := fun j =>
              if j = i then (m_al_read_pfchunk K stream (map.tiles i)).tiles else map.tiles j }
        entered := i + 1 }
    else
      M_AL_InitMapFromStream_loop K env header renderbuff_sz n (i + 1)
        (unused_base + renderbuff_sz)
        (m_al_read_pfchunk K stream (map.tiles i)).stream
        { map with
          render_private := fun j => if j = i then unused_base else map.render_private j
          tiles := fun j =>
            if j = i then (m_al_read_pfchunk K stream (map.tiles i)).tiles else map.tiles j }

/-- `M_AL_InitMapFromStream(header, basedir, stream, pfmat_name, outmap)`. The
block starts at offset 0, so `(char*)(map + 1)` is the offset `sizeof(struct
map)`. The products are computed as in `M_AL_BuffSizeFromHeader`. -/
def M_AL_InitMapFromStream (K : MapConsts) (env : LoadEnv) (header : pfmap_hdr)
    (stream : List Char) (outmap : map_block) : InitResult :=
  M_AL_InitMapFromStream_loop K env header
    (env.R_AL_PrivBuffSizeForChunk K.TILES_PER_CHUNK_WIDTH K.TILES_PER_CHUNK_HEIGHT
        header.num_materials % SIZE_RANGE)
    ((header.num_rows * header.num_cols) % UINT_RANGE) 0
    (K.sizeof_map
      + (((header.num_rows * header.num_cols) % UINT_RANGE) * (K.sizeof_pfchunk % SIZE_RANGE))
          % SIZE_RANGE)
    stream
    { outmap with width := header.num_cols, height := header.num_rows, pos := ⟨0, 0, 0⟩ }

/-- Sample collaborators: the sample sizing function, a material file that
opens, and an initialisation of the private buffer that succeeds. -/
def sample_env : LoadEnv :=
  { R_AL_PrivBuffSizeForChunk := sample_priv_size
    fopen_ok := fun _ => true
    R_AL_InitPrivFromTilesAndMats := fun _ _ _ => true }

/-- Sample header: two materials, one row of two chunks. -/
def sample_header : pfmap_hdr :=
  { num_materials := 2, num_rows := 1, num_cols := 2, others := [] }

/-- Sample block, before the load. -/
def blank_block : map_block :=
  { width := 0, height := 0, pos := ⟨0, 0, 0⟩, tiles := fun _ _ => default,
    render_private := fun _ => 0 }

/-- Sample map text: two chunks of 2 by 2 tiles. -/
def sample_text : List Char :=
  "112345 011000\n012345 999999\n010000 010000\n010000 010000\n".toList

/-! ### Specification-side notions for orientation -/

/-- Difference of two vectors. -/
def vec3_sub (a b : vec3_t) : vec3_t :=
  ⟨a.x - b.x, a.y - b.y, a.z - b.z⟩

/-- Cross product of two vectors. -/
def vec3_cross (a b : vec3_t) : vec3_t :=
  ⟨a.y * b.z - a.z * b.y, a.z * b.x - a.x * b.z, a.x * b.y - a.y * b.x⟩

/-- Dot product of two vectors. -/
def vec3_dot (a b : vec3_t) : ℚ :=
  a.x * b.x + a.y * b.y + a.z * b.z

/-- Dot product of the geometric normal `(NE - NW) x (SW - NW)` of the first
triangle of a face with the normal stored in its vertices. -/
def orientation_first (f : face) : ℚ :=
  vec3_dot (vec3_cross (vec3_sub f.ne.pos f.nw.pos) (vec3_sub f.sw.pos f.nw.pos)) f.nw.normal

/-- Dot product of the geometric normal `(SW - SE) x (NE - SE)` of the second
triangle of a face with the normal stored in its vertices. -/
def orientation_second (f : face) : ℚ :=
  vec3_dot (vec3_cross (vec3_sub f.sw.pos f.se.pos) (vec3_sub f.ne.pos f.se.pos)) f.se.normal

/-- The sample ramp `sample_ramp_ns` made not pathable: the same tile but for
the field `pathable`. -/
def sample_ramp_ns_blocked : Tile :=
  { type := 2, pathable := false, base_height := 2, top_mat_idx := 0, sides_mat_idx := 1,
    ramp_height := 3 }

/-- A vertex array holding the default vertex at every index. -/
def blank_vertices : Nat → vertex :=
  fun _ => default

/-! ### The bottom face in machine arithmetic -/

/-- The spacing of the `float` values around the nonnegative integer `n`: 1
below `2 ^ 24`, and doubled each time `n` is halved down to that range (a
`float` has a significand of 24 bits). The first argument bounds the number of
halvings; 64 is enough for every `size_t` value. -/
def float_ulp : Nat → Nat → Nat
  | 0, _ => 1
  | k + 1, n => if n < 2 ^ 24 then 1 else 2 * float_ulp k (n / 2)

/-- Conversion to `float` of a nonnegative integer value (a `size_t`, or a
nonnegative `int`): the nearest multiple of the spacing, a tie going to the
even significand. -/
def float_of_nat (n : Nat) : Nat :=
  if 2 * (n % float_ulp 64 n) < float_ulp 64 n then
    n / float_ulp 64 n * float_ulp 64 n
  else if float_ulp 64 n < 2 * (n % float_ulp 64 n) then
    (n / float_ulp 64 n + 1) * float_ulp 64 n
  else if n / float_ulp 64 n % 2 = 0 then
    n / float_ulp 64 n * float_ulp 64 n
  else
    (n / float_ulp 64 n + 1) * float_ulp 64 n

/-- The product of two `size_t` values, in `size_t` arithmetic. -/
def size_t_mul (a b : Nat) : Nat :=
  (a % SIZE_RANGE) * (b % SIZE_RANGE) % SIZE_RANGE

/-- The sum of two `size_t` values, in `size_t` arithmetic. -/
def size_t_add (a b : Nat) : Nat :=
  (a % SIZE_RANGE + b % SIZE_RANGE) % SIZE_RANGE

/-- The tile extents as `RenderConsts`, when the three macros are nonnegative
integer constants. -/
def extents_of (X Y Z : Nat) : RenderConsts :=
  { X_COORDS_PER_TILE := X, Y_COORDS_PER_TILE := Y, Z_COORDS_PER_TILE := Z }

/-- The local `struct face bot` of `R_GL_VerticesFromTile` with the machine
arithmetic of its positions made explicit, for tile extents `X`, `Y`, `Z` that
are nonnegative integer constants: `(c+1) * X_COORDS_PER_TILE` and the like are
computed in `size_t` arithmetic, which wraps, and converted to `float`, which
rounds, before the `float` subtraction from, or addition to, `0.0f`. -/
def bot_machine (X Y Z : Nat) (tile : Tile) (r c : Nat) : face :=
  { nw :=
      { pos := ⟨0 - (float_of_nat (size_t_mul (size_t_add c 1) X) : ℚ),
          -1 * (float_of_nat Y : ℚ),
          0 + (float_of_nat (size_t_mul r Z) : ℚ)⟩
        uv := ⟨0, 1⟩
        normal := ⟨0, -1, 0⟩
        material_idx := tile.top_mat_idx
        joint_indices := [0, 0, 0, 0]
        weights := [0, 0, 0, 0] }
    ne :=
      { pos := ⟨0 - (float_of_nat (size_t_mul c X) : ℚ),
          -1 * (float_of_nat Y : ℚ),
          0 + (float_of_nat (size_t_mul r Z) : ℚ)⟩
        uv := ⟨1, 1⟩
        normal := ⟨0, -1, 0⟩
        material_idx := tile.top_mat_idx
        joint_indices := [0, 0, 0, 0]
        weights := [0, 0, 0, 0] }
    se :=
      { pos := ⟨0 - (float_of_nat (size_t_mul c X) : ℚ),
          -1 * (float_of_nat Y : ℚ),
          0 + (float_of_nat (size_t_mul (size_t_add r 1) Z) : ℚ)⟩
        uv := ⟨1, 0⟩
        normal := ⟨0, -1, 0⟩
        material_idx := tile.top_mat_idx
        joint_indices := [0, 0, 0, 0]
        weights := [0, 0, 0, 0] }
    sw :=
      { pos := ⟨0 - (float_of_nat (size_t_mul (size_t_add c 1) X) : ℚ),
          -1 * (float_of_nat Y : ℚ),
          0 + (float_of_nat (size_t_mul (size_t_add r 1) Z) : ℚ)⟩
        uv := ⟨0, 0⟩
        normal := ⟨0, -1, 0⟩
        material_idx := tile.top_mat_idx
        joint_indices := [0, 0, 0, 0]
        weights := [0, 0, 0, 0] } }

/-! ## Theorems -/

/-! ### The tile token parser -/

theorem digit_char_val (d : Nat) (h : d < 10) :
    char_val (digit_char d) - char_val '0' = (d : Int) := by
  interval_cases d <;> decide

theorem strlen_of_no_NUL (str : List Char) (h : NUL ∉ str) : strlen str = str.length := by
  unfold strlen c_str
  rw [List.takeWhile_eq_self_iff.mpr]
  intro ch hch
  simp only [bne_iff_ne, ne_eq]
  rintro rfl
  exact h hch

theorem digit_char_ne_NUL (d : Nat) (h : d < 10) : digit_char d ≠ NUL := by
  interval_cases d <;> decide

/-- The parser succeeds exactly on the strings of length 6. -/
theorem parse_ok_iff (str : List Char) (out : Tile) :
    (m_al_parse_tile str out).1 = true ↔ strlen str = 6 := by
  unfold m_al_parse_tile
  by_cases h : strlen str = 6 <;> simp [h]

/-- On success the output does not depend on the previous content of `*out`. -/
theorem parse_eq_decode (str : List Char) (out : Tile)
    (h : (m_al_parse_tile str out).1 = true) :
    (m_al_parse_tile str out).2 = decode_tile str := by
  have h6 := (parse_ok_iff str out).mp h
  simp [decode_tile, m_al_parse_tile, h6]

/-- C3, as stated, fails: the token `020000` is accepted, but the field `pathable`
is a `bool` and holds 1, not the digit value 2. -/
theorem m_al_parse_tile_pathable_not_digit :
    (m_al_parse_tile "020000".toList default).1 = true
      ∧ bool_val (m_al_parse_tile "020000".toList default).2.pathable = 1
      ∧ bool_val (m_al_parse_tile "020000".toList default).2.pathable ≠ 2 := by
  decide

/-- C3, amended: for every token made of six decimal digits `d0 .. d5`,
`m_al_parse_tile` succeeds and sets `type = d0`, `base_height = d2`,
`top_mat_idx = d3`, `sides_mat_idx = d4`, `ramp_height = d5`, and sets
`pathable` to true exactly when `d1` is not zero. -/
theorem m_al_parse_tile_digits (d0 d1 d2 d3 d4 d5 : Nat) (out : Tile)
    (h0 : d0 < 10) (h1 : d1 < 10) (h2 : d2 < 10) (h3 : d3 < 10) (h4 : d4 < 10)
    (h5 : d5 < 10) :
    m_al_parse_tile
        [digit_char d0, digit_char d1, digit_char d2, digit_char d3, digit_char d4,
          digit_char d5] out
      = (true,
          { type := d0
            pathable := decide (d1 ≠ 0)
            base_height := d2
            top_mat_idx := d3
            sides_mat_idx := d4
            ramp_height := d5 }) := by
  have hlen : strlen [digit_char d0, digit_char d1, digit_char d2, digit_char d3,
      digit_char d4, digit_char d5] = 6 := by
    rw [strlen_of_no_NUL]
    · rfl
    · intro hmem
      simp only [List.mem_cons, List.mem_singleton, List.not_mem_nil, or_false] at hmem
      rcases hmem with h | h | h | h | h | h
      · exact digit_char_ne_NUL d0 h0 h.symm
      · exact digit_char_ne_NUL d1 h1 h.symm
      · exact digit_char_ne_NUL d2 h2 h.symm
      · exact digit_char_ne_NUL d3 h3 h.symm
      · exact digit_char_ne_NUL d4 h4 h.symm
      · exact digit_char_ne_NUL d5 h5 h.symm
  unfold m_al_parse_tile
  rw [if_neg (by simp [hlen])]
  simp only [digit_at, List.getD_cons_zero, List.getD_cons_succ, digit_char_val, h0, h1, h2,
    h3, h4, h5, Nat.cast_eq_zero, ne_eq]

/-- Witness of `m_al_parse_tile_digits`: the token `712345`. -/
theorem m_al_parse_tile_digits_witness :
    m_al_parse_tile "712345".toList default
      = (true,
          { type := 7
            pathable := true
            base_height := 2
            top_mat_idx := 3
            sides_mat_idx := 4
            ramp_height := 5 }) :=
  m_al_parse_tile_digits 7 1 2 3 4 5 default (by decide) (by decide) (by decide) (by decide)
    (by decide) (by decide)

/-- C4: a token whose length is not 6 is rejected and the output tile is left
as it was; a token of length 6 is not rejected. The length of a token is its
`strlen`, which is the number of its characters when it holds no NUL. -/
theorem m_al_parse_tile_length (str : List Char) (out : Tile) :
    (strlen str ≠ 6 → m_al_parse_tile str out = (false, out))
      ∧ (strlen str = 6 → (m_al_parse_tile str out).1 = true)
      ∧ (NUL ∉ str → strlen str = str.length) := by
  refine ⟨fun h => ?_, fun h => ?_, strlen_of_no_NUL str⟩
  · simp [m_al_parse_tile, h]
  · simp [m_al_parse_tile, h]

/-- Witness of `m_al_parse_tile_length`: the empty token and a token of seven
characters are rejected without a change to the tile, a token of six is
accepted. -/
theorem m_al_parse_tile_length_witness :
    m_al_parse_tile [] ⟨3, true, 1, 4, 1, 5⟩ = (false, ⟨3, true, 1, 4, 1, 5⟩)
      ∧ m_al_parse_tile "0110001".toList ⟨3, true, 1, 4, 1, 5⟩ = (false, ⟨3, true, 1, 4, 1, 5⟩)
      ∧ (m_al_parse_tile "011000".toList ⟨3, true, 1, 4, 1, 5⟩).1 = true
      ∧ strlen "011000".toList = "011000".toList.length :=
  ⟨(m_al_parse_tile_length [] _).1 (by decide),
    (m_al_parse_tile_length "0110001".toList _).1 (by decide),
    (m_al_parse_tile_length "011000".toList _).2.1 (by decide),
    (m_al_parse_tile_length "011000".toList default).2.2 (by decide)⟩

/-- C5, as stated, fails: the token `0a0000` has length 6 and holds the
character `a`, which is not a decimal digit, and `m_al_parse_tile` accepts
it. -/
theorem m_al_parse_tile_accepts_non_digit :
    strlen "0a0000".toList = 6
      ∧ 'a' ∈ "0a0000".toList ∧ Char.isDigit 'a' = false
      ∧ m_al_parse_tile "0a0000".toList default = (true, ⟨0, true, 0, 0, 0, 0⟩) := by
  decide

/-- C5, amended: every token of length exactly 6 is accepted, whether or not
its characters are decimal digits; no character is ever checked, each field is
the code of its character minus the code of `0`. -/
theorem m_al_parse_tile_no_digit_check (str : List Char) (out : Tile) (h : strlen str = 6) :
    (m_al_parse_tile str out).1 = true
      ∧ (m_al_parse_tile str out).2.type = char_val (str.getD 0 NUL) - 48
      ∧ ((m_al_parse_tile str out).2.pathable = true ↔ char_val (str.getD 1 NUL) ≠ 48)
      ∧ (m_al_parse_tile str out).2.base_height = char_val (str.getD 2 NUL) - 48
      ∧ (m_al_parse_tile str out).2.top_mat_idx = char_val (str.getD 3 NUL) - 48
      ∧ (m_al_parse_tile str out).2.sides_mat_idx = char_val (str.getD 4 NUL) - 48
      ∧ (m_al_parse_tile str out).2.ramp_height = char_val (str.getD 5 NUL) - 48 := by
  have h48 : char_val '0' = 48 := by decide
  simp only [m_al_parse_tile, h, ne_eq, not_true_eq_false, if_false, digit_at, h48,
    decide_eq_true_eq, true_and, and_true]
  omega

/-- Witness of `m_al_parse_tile_no_digit_check`: the token `0a0000`. -/
theorem m_al_parse_tile_no_digit_check_witness :
    (m_al_parse_tile "0a0000".toList default).1 = true
      ∧ (m_al_parse_tile "0a0000".toList default).2.type = char_val ("0a0000".toList.getD 0 NUL) - 48
      ∧ ((m_al_parse_tile "0a0000".toList default).2.pathable = true
          ↔ char_val ("0a0000".toList.getD 1 NUL) ≠ 48)
      ∧ (m_al_parse_tile "0a0000".toList default).2.base_height
          = char_val ("0a0000".toList.getD 2 NUL) - 48
      ∧ (m_al_parse_tile "0a0000".toList default).2.top_mat_idx
          = char_val ("0a0000".toList.getD 3 NUL) - 48
      ∧ (m_al_parse_tile "0a0000".toList default).2.sides_mat_idx
          = char_val ("0a0000".toList.getD 4 NUL) - 48
      ∧ (m_al_parse_tile "0a0000".toList default).2.ramp_height
          = char_val ("0a0000".toList.getD 5 NUL) - 48 :=
  m_al_parse_tile_no_digit_check "0a0000".toList default (by decide)

/-! ### Reading a line -/

theorem fgets_chars_eq (k : Nat) (stream : List Char) (h : (first_line stream).length ≤ k) :
    fgets_chars k stream = (first_line stream, stream.drop (first_line stream).length) := by
  induction stream generalizing k with
  | nil => cases k <;> rfl
  | cons ch rest ih =>
    cases k with
    | zero =>
      exfalso
      unfold first_line at h
      split_ifs at h <;> simp at h
    | succ k =>
      unfold first_line at h ⊢
      by_cases hc : ch = '\n'
      · simp [fgets_chars, hc]
      · simp only [hc, if_false, List.length_cons, Nat.add_le_add_iff_right] at h
        simp [fgets_chars, hc, ih k h]

theorem first_line_eq_nil (stream : List Char) : first_line stream = [] ↔ stream = [] := by
  cases stream with
  | nil => simp [first_line]
  | cons ch rest =>
    unfold first_line
    split_ifs <;> simp

theorem READ_LINE_nil (K : MapConsts) : READ_LINE K [] = none := rfl

theorem READ_LINE_eq (K : MapConsts) (stream : List Char) (hne : stream ≠ [])
    (hfit : (first_line stream).length < K.MAX_LINE_LEN) :
    READ_LINE K stream = some (first_line stream, stream.drop (first_line stream).length) := by
  cases stream with
  | nil => exact absurd rfl hne
  | cons ch rest =>
    have hk : (first_line (ch :: rest)).length ≤ K.MAX_LINE_LEN - 1 := by omega
    simp only [READ_LINE, fgets, fgets_chars_eq _ _ hk]
    rw [List.take_of_length_le hk]

theorem c_str_of_no_NUL (buff : List Char) (h : NUL ∉ buff) : c_str buff = buff := by
  unfold c_str
  rw [List.takeWhile_eq_self_iff]
  intro ch hch
  simp only [bne_iff_ne, ne_eq]
  rintro rfl
  exact h hch

/-! ### Tokenisation -/

theorem split_tokens_nil (delim : List Char) : split_tokens delim [] = [] := by
  simp [split_tokens, List.splitOnP_nil]

theorem split_tokens_cons_delim (delim : List Char) (ch : Char) (text : List Char)
    (h : is_delim delim ch = true) : split_tokens delim (ch :: text) = split_tokens delim text := by
  have := List.splitOnP_first (is_delim delim) [] (by simp) ch h text
  rw [List.nil_append] at this
  simp only [split_tokens, this]
  rfl

theorem split_tokens_single (delim : List Char) (tok : List Char) (hne : tok ≠ [])
    (h : ∀ ch ∈ tok, is_delim delim ch = false) : split_tokens delim tok = [tok] := by
  have := List.splitOnP_eq_single (is_delim delim) tok
    (by intro x hx; simp [h x hx])
  simp only [split_tokens, this]
  cases tok with
  | nil => exact absurd rfl hne
  | cons a l => rfl

theorem split_tokens_first (delim : List Char) (tok : List Char) (sep : Char) (text : List Char)
    (hne : tok ≠ []) (h : ∀ ch ∈ tok, is_delim delim ch = false)
    (hsep : is_delim delim sep = true) :
    split_tokens delim (tok ++ sep :: text) = tok :: split_tokens delim text := by
  have := List.splitOnP_first (is_delim delim) tok
    (by intro x hx; simp [h x hx]) sep hsep text
  simp only [split_tokens, this]
  cases tok with
  | nil => exact absurd rfl hne
  | cons a l => rfl

theorem split_tokens_dropWhile (delim : List Char) (text : List Char) :
    split_tokens delim (text.dropWhile (is_delim delim)) = split_tokens delim text := by
  induction text with
  | nil => rfl
  | cons ch rest ih =>
    by_cases h : is_delim delim ch = true
    · rw [List.dropWhile_cons_of_pos h, ih, split_tokens_cons_delim delim ch rest h]
    · rw [List.dropWhile_cons_of_neg h]

/-- The step of `strtok_r` on the text `start`: the token found, followed by
the tokens of the text left at the save pointer, are the tokens of `start`. -/
theorem strtok_step (start : List Char) :
    (match start.dropWhile (is_delim row_delim) with
      | [] => pending_tokens none []
      | ch :: str =>
        pending_tokens (some ((ch :: str).takeWhile (fun x => !is_delim row_delim x)))
          (((ch :: str).dropWhile (fun x => !is_delim row_delim x)).drop 1))
      = split_tokens row_delim start := by
  rw [← split_tokens_dropWhile]
  generalize hs : start.dropWhile (is_delim row_delim) = s1
  cases s1 with
  | nil => simp [pending_tokens, split_tokens_nil]
  | cons ch str =>
    have hhead : is_delim row_delim ch = false := by
      have := List.head_dropWhile_not (is_delim row_delim) start (by rw [hs]; simp)
      simpa only [hs, List.head_cons] using this
    simp only [pending_tokens]
    set tok := (ch :: str).takeWhile (fun x => !is_delim row_delim x) with htok
    set rest := (ch :: str).dropWhile (fun x => !is_delim row_delim x) with hrest
    have hsplit : ch :: str = tok ++ rest := (List.takeWhile_append_dropWhile _ _).symm
    have htokne : tok ≠ [] := by
      rw [htok, List.takeWhile_cons_of_pos (by simp [hhead])]
      simp
    have hall : ∀ x ∈ tok, is_delim row_delim x = false := by
      intro x hx
      have := List.mem_takeWhile_imp hx
      simpa using this
    cases hr : rest with
    | nil =>
      rw [hsplit, hr, List.append_nil, split_tokens_single _ _ htokne hall]
      simp [split_tokens_nil]
    | cons sep text =>
      have hsep : is_delim row_delim sep = true := by
        have := List.head_dropWhile_not (fun x => !is_delim row_delim x) (ch :: str)
          (by rw [← hrest, hr]; simp)
        simpa only [← hrest, hr, List.head_cons, Bool.not_eq_false'] using this
      rw [hsplit, hr, split_tokens_first _ _ _ _ htokne hall hsep]
      simp

theorem strtok_r_none_pending (saveptr : List Char) :
    pending_tokens (strtok_r none row_delim saveptr).1 (strtok_r none row_delim saveptr).2
      = split_tokens row_delim saveptr := by
  rw [← strtok_step saveptr]
  unfold strtok_r
  simp only
  split <;> simp_all [pending_tokens]

theorem strtok_r_some_pending (line saveptr : List Char) :
    pending_tokens (strtok_r (some line) row_delim saveptr).1
        (strtok_r (some line) row_delim saveptr).2
      = split_tokens row_delim (c_str line) := by
  rw [← strtok_step (c_str line)]
  unfold strtok_r
  simp only
  split <;> simp_all [pending_tokens]

/-! ### The row reader -/

theorem parse_ok_indep (str : List Char) (out out2 : Tile) :
    (m_al_parse_tile str out).1 = (m_al_parse_tile str out2).1 := by
  unfold m_al_parse_tile
  split_ifs <;> rfl

theorem parse_fail_unchanged (str : List Char) (out : Tile)
    (h : (m_al_parse_tile str out).1 = false) : (m_al_parse_tile str out).2 = out := by
  unfold m_al_parse_tile at h ⊢
  split_ifs at h ⊢
  rfl

theorem store_tile_same (tiles : Nat → Tile) (i : Nat) (t : Tile) :
    store_tile tiles i t i = t := by
  simp [store_tile]

theorem store_tile_other (tiles : Nat → Tile) (i j : Nat) (t : Tile) (h : j ≠ i) :
    store_tile tiles i t j = tiles j := by
  simp [store_tile, h]

/-- The loop of `m_al_read_row`, described through the tokens that are still to
come when it starts. -/
theorem m_al_read_row_loop_spec (n : Nat) :
    ∀ (i : Nat) (string : Option (List Char)) (saveptr : List Char) (tiles : Nat → Tile)
      (out : Nat) (toks : List (List Char)), pending_tokens string saveptr = toks →
      ((m_al_read_row_loop n i string saveptr tiles out).1 = true
          ↔ n ≤ toks.length ∧ ∀ tok ∈ toks.take n, (m_al_parse_tile tok default).1 = true)
        ∧ ((m_al_read_row_loop n i string saveptr tiles out).1 = true →
            ((m_al_read_row_loop n i string saveptr tiles out).2.1 = none ↔ toks.length ≤ n))
        ∧ ((m_al_read_row_loop n i string saveptr tiles out).1 = true →
            ∀ k tok, toks[k]? = some tok → k < n →
              (m_al_read_row_loop n i string saveptr tiles out).2.2 (out + i + k)
                = decode_tile tok)
        ∧ (∀ j, j < out + i ∨ out + i + n ≤ j →
            (m_al_read_row_loop n i string saveptr tiles out).2.2 j = tiles j) := by
  induction n with
  | zero =>
    intro i string saveptr tiles out toks h
    refine ⟨by simp [m_al_read_row_loop], fun _ => ?_, fun _ k tok _ hk => by omega,
      fun j _ => rfl⟩
    cases string with
    | none => simp [m_al_read_row_loop, ← h, pending_tokens]
    | some tok => simp [m_al_read_row_loop, ← h, pending_tokens]
  | succ n ih =>
    intro i string saveptr tiles out toks h
    cases string with
    | none =>
      have ht : toks = [] := by rw [← h]; rfl
      subst ht
      simp [m_al_read_row_loop]
    | some tok =>
      have ht : toks = tok :: split_tokens row_delim saveptr := by rw [← h]; rfl
      subst ht
      by_cases hp : (m_al_parse_tile tok (tiles (out + i))).1 = false
      · have hp2 : (m_al_parse_tile tok default).1 = false := by
          rw [← hp]; exact parse_ok_indep _ _ _
        simp only [m_al_read_row_loop, hp, if_true]
        refine ⟨?_, by simp, by simp, ?_⟩
        · simp [hp2]
        · intro j hj
          rw [parse_fail_unchanged _ _ hp]
          by_cases hji : j = out + i
          · rw [hji, store_tile_same]
          · rw [store_tile_other _ _ _ _ hji]
      · have hp1 : (m_al_parse_tile tok (tiles (out + i))).1 = true := by simpa using hp
        have hp2 : (m_al_parse_tile tok default).1 = true := by
          rw [← hp1]; exact parse_ok_indep _ _ _
        have hrec := ih (i + 1) (strtok_r none row_delim saveptr).1
          (strtok_r none row_delim saveptr).2
          (store_tile tiles (out + i) (m_al_parse_tile tok (tiles (out + i))).2) out
          (split_tokens row_delim saveptr) (strtok_r_none_pending saveptr)
        obtain ⟨h1, h2, h3, h4⟩ := hrec
        have hstep : m_al_read_row_loop (n + 1) i (some tok) saveptr tiles out
            = m_al_read_row_loop n (i + 1) (strtok_r none row_delim saveptr).1
                (strtok_r none row_delim saveptr).2
                (store_tile tiles (out + i) (m_al_parse_tile tok (tiles (out + i))).2) out := by
          simp [m_al_read_row_loop, hp1]
        rw [hstep]
        refine ⟨?_, ?_, ?_, ?_⟩
        · rw [h1]
          simp [hp2]
        · intro hok
          rw [h2 hok]
          simp
        · intro hok k tk hk hkn
          cases k with
          | zero =>
            simp only [List.getElem?_cons_zero, Option.some.injEq] at hk
            subst hk
            rw [h4 (out + i + 0) (Or.inl (by omega)), Nat.add_zero, store_tile_same]
            exact parse_eq_decode _ _ hp1
          | succ k =>
            simp only [List.getElem?_cons_succ] at hk
            have e : out + i + (k + 1) = out + (i + 1) + k := by omega
            rw [e]
            exact h3 hok k tk hk (by omega)
        · intro j hj
          rw [h4 j (by omega), store_tile_other _ _ _ _ (by omega)]

theorem m_al_read_row_nil (K : MapConsts) (tiles : Nat → Tile) (out : Nat) :
    m_al_read_row K [] tiles out = { ok := false, stream := [], tiles := tiles } := rfl

theorem READ_LINE_cons (K : MapConsts) (ch : Char) (rest : List Char) :
    READ_LINE K (ch :: rest)
      = some ((fgets_chars (K.MAX_LINE_LEN - 1) (ch :: rest)).1.take (K.MAX_LINE_LEN - 1),
          (fgets_chars (K.MAX_LINE_LEN - 1) (ch :: rest)).2) := rfl

/-- The row reader on any stream: success flag, stream left, tiles written and
tiles kept. -/
theorem m_al_read_row_general (K : MapConsts) (stream : List Char) (tiles : Nat → Tile)
    (out : Nat) :
    ((m_al_read_row K stream tiles out).ok = true ↔ row_ok K stream)
      ∧ (m_al_read_row K stream tiles out).stream = row_rest K stream
      ∧ ((m_al_read_row K stream tiles out).ok = true →
          ∀ i tok, (split_tokens row_delim (row_line K stream))[i]? = some tok →
            (m_al_read_row K stream tiles out).tiles (out + i) = decode_tile tok)
      ∧ (∀ j, j < out ∨ out + K.TILES_PER_CHUNK_WIDTH ≤ j →
          (m_al_read_row K stream tiles out).tiles j = tiles j) := by
  cases stream with
  | nil => simp [m_al_read_row_nil, row_ok, row_rest, READ_LINE_nil]
  | cons ch rest =>
    have hread := READ_LINE_cons K ch rest
    generalize (fgets_chars (K.MAX_LINE_LEN - 1) (ch :: rest)).1.take (K.MAX_LINE_LEN - 1)
      = line at hread
    generalize (fgets_chars (K.MAX_LINE_LEN - 1) (ch :: rest)).2 = left at hread
    have hpend := strtok_r_some_pending line []
    obtain ⟨h1, h2, h3, h4⟩ := m_al_read_row_loop_spec K.TILES_PER_CHUNK_WIDTH 0
      (strtok_r (some line) row_delim []).1 (strtok_r (some line) row_delim []).2 tiles out _
      hpend
    have hne : ch :: rest ≠ [] := by simp
    simp only [m_al_read_row, hread, row_ok, row_line, row_rest]
    generalize m_al_read_row_loop K.TILES_PER_CHUNK_WIDTH 0
      (strtok_r (some line) row_delim []).1 (strtok_r (some line) row_delim []).2 tiles out
      = loop at h1 h2 h3 h4 ⊢
    generalize split_tokens row_delim (c_str line) = toks at h1 h2 h3 h4 ⊢
    by_cases hl : loop.1 = false
    · simp only [hl, if_true]
      refine ⟨?_, trivial, by simp, fun j hj => h4 j (by omega)⟩
      constructor
      · intro h
        exact absurd h (by simp)
      · rintro ⟨_, hlen, hall⟩
        have : loop.1 = true :=
          h1.mpr ⟨by omega, fun tok htok => hall tok (List.mem_of_mem_take htok)⟩
        rw [hl] at this
        exact this
    · have hl1 : loop.1 = true := by simpa using hl
      obtain ⟨hge, hall⟩ := h1.mp hl1
      by_cases hs : loop.2.1 = none
      · have hle := (h2 hl1).mp hs
        have hlen : toks.length = K.TILES_PER_CHUNK_WIDTH := by omega
        rw [← hlen, List.take_length] at hall
        rw [if_neg hl, if_neg (not_not.mpr hs)]
        refine ⟨⟨fun _ => ⟨hne, hlen, hall⟩, fun _ => rfl⟩, rfl, fun _ i tok hi => ?_,
          fun j hj => h4 j (by omega)⟩
        have hi2 := (List.getElem?_eq_some_iff.mp hi).1
        have := h3 hl1 i tok hi (by omega)
        rw [Nat.add_zero] at this
        exact this
      · have hgt : ¬ toks.length ≤ K.TILES_PER_CHUNK_WIDTH := fun h => hs ((h2 hl1).mpr h)
        rw [if_neg hl, if_pos hs]
        refine ⟨?_, rfl, by simp, fun j hj => h4 j (by omega)⟩
        constructor
        · intro h
          exact absurd h (by simp)
        · rintro ⟨_, hlen, _⟩
          omega

/-- On a stream whose first line fits in the line buffer, `READ_LINE` consumes
exactly that line. -/
theorem row_rest_of_fit (K : MapConsts) (stream : List Char)
    (hfit : (first_line stream).length < K.MAX_LINE_LEN) :
    row_rest K stream = stream.drop (first_line stream).length := by
  by_cases hne : stream = []
  · subst hne; rfl
  · simp [row_rest, READ_LINE_eq K stream hne hfit]

/-- On a stream whose first line fits in the line buffer and holds no NUL, the
text tokenised by `m_al_read_row` is that line. -/
theorem row_line_of_fit (K : MapConsts) (stream : List Char)
    (hfit : (first_line stream).length < K.MAX_LINE_LEN) (hnul : NUL ∉ first_line stream) :
    row_line K stream = first_line stream := by
  by_cases hne : stream = []
  · subst hne; rfl
  · simp [row_line, READ_LINE_eq K stream hne hfit, c_str_of_no_NUL _ hnul]

theorem row_ok_of_fit (K : MapConsts) (stream : List Char)
    (hfit : (first_line stream).length < K.MAX_LINE_LEN) (hnul : NUL ∉ first_line stream) :
    row_ok K stream ↔ row_accepted K (first_line stream) := by
  unfold row_ok row_accepted
  rw [row_line_of_fit K stream hfit hnul, ne_eq, ne_eq, first_line_eq_nil]

/-- The row reader on a stream whose first line fits in the line buffer and
holds no NUL: success flag, stream left, tiles written and tiles kept. -/
theorem m_al_read_row_core (K : MapConsts) (stream : List Char) (tiles : Nat → Tile)
    (out : Nat) (hfit : (first_line stream).length < K.MAX_LINE_LEN)
    (hnul : NUL ∉ first_line stream) :
    ((m_al_read_row K stream tiles out).ok = true ↔ row_accepted K (first_line stream))
      ∧ (m_al_read_row K stream tiles out).stream = stream.drop (first_line stream).length
      ∧ ((m_al_read_row K stream tiles out).ok = true →
          ∀ i tok, (split_tokens row_delim (first_line stream))[i]? = some tok →
            (m_al_read_row K stream tiles out).tiles (out + i) = decode_tile tok)
      ∧ (∀ j, j < out ∨ out + K.TILES_PER_CHUNK_WIDTH ≤ j →
          (m_al_read_row K stream tiles out).tiles j = tiles j) := by
  have h := m_al_read_row_general K stream tiles out
  rw [row_ok_of_fit K stream hfit hnul, row_rest_of_fit K stream hfit,
    row_line_of_fit K stream hfit hnul] at h
  exact h

/-- C6: for a stream whose first line fits in the line buffer (and holds no
NUL), `m_al_read_row` succeeds if and only if the line splits on spaces, tabs
and newlines into exactly `TILES_PER_CHUNK_WIDTH` tokens, each accepted by
`m_al_parse_tile`; a line with fewer tokens and a line with more tokens are
rejected, an exhausted stream is rejected, the line is consumed, and on success
the tile at `out + i` is the decode of token `i`. -/
theorem m_al_read_row_accepts_iff (K : MapConsts) (stream : List Char) (tiles : Nat → Tile)
    (out : Nat) (hne : stream ≠ []) (hfit : (first_line stream).length < K.MAX_LINE_LEN)
    (hnul : NUL ∉ first_line stream) :
    ((m_al_read_row K stream tiles out).ok = true
        ↔ (split_tokens row_delim (first_line stream)).length = K.TILES_PER_CHUNK_WIDTH
          ∧ ∀ tok ∈ split_tokens row_delim (first_line stream),
              (m_al_parse_tile tok default).1 = true)
      ∧ ((split_tokens row_delim (first_line stream)).length < K.TILES_PER_CHUNK_WIDTH →
          (m_al_read_row K stream tiles out).ok = false)
      ∧ (K.TILES_PER_CHUNK_WIDTH < (split_tokens row_delim (first_line stream)).length →
          (m_al_read_row K stream tiles out).ok = false)
      ∧ (m_al_read_row K [] tiles out).ok = false
      ∧ (m_al_read_row K stream tiles out).stream = stream.drop (first_line stream).length
      ∧ ((m_al_read_row K stream tiles out).ok = true →
          ∀ i tok, (split_tokens row_delim (first_line stream))[i]? = some tok →
            (m_al_read_row K stream tiles out).tiles (out + i) = (m_al_parse_tile tok default).2) := by
  obtain ⟨h1, h2, h3, _⟩ := m_al_read_row_core K stream tiles out hfit hnul
  have hline : first_line stream ≠ [] := fun h => hne ((first_line_eq_nil stream).mp h)
  have hiff : (m_al_read_row K stream tiles out).ok = true
      ↔ (split_tokens row_delim (first_line stream)).length = K.TILES_PER_CHUNK_WIDTH
        ∧ ∀ tok ∈ split_tokens row_delim (first_line stream),
            (m_al_parse_tile tok default).1 = true := by
    rw [h1]
    exact ⟨fun h => h.2, fun h => ⟨hline, h⟩⟩
  refine ⟨hiff, fun hlt => ?_, fun hgt => ?_, rfl, h2, h3⟩
  · cases hok : (m_al_read_row K stream tiles out).ok with
    | false => rfl
    | true =>
      have := (hiff.mp hok).1
      omega
  · cases hok : (m_al_read_row K stream tiles out).ok with
    | false => rfl
    | true =>
      have := (hiff.mp hok).1
      omega

/-- Witness of `m_al_read_row_accepts_iff`, for rows of two tiles: a line of two
tokens is accepted and decoded, a line of one token and a line of three tokens
are rejected. -/
theorem m_al_read_row_accepts_iff_witness :
    (m_al_read_row sample_consts "112345 011000\n012345".toList (fun _ => default) 0).ok = true
      ∧ (m_al_read_row sample_consts "112345\n".toList (fun _ => default) 0).ok = false
      ∧ (m_al_read_row sample_consts "112345 011000 011000\n".toList (fun _ => default) 0).ok
          = false
      ∧ (m_al_read_row sample_consts "112345 011000\n012345".toList (fun _ => default) 0).stream
          = "012345".toList :=
  ⟨(m_al_read_row_accepts_iff sample_consts "112345 011000\n012345".toList (fun _ => default) 0
      (by decide) (by decide) (by decide)).1.mpr (by decide),
    (m_al_read_row_accepts_iff sample_consts "112345\n".toList (fun _ => default) 0
      (by decide) (by decide) (by decide)).2.1 (by decide),
    (m_al_read_row_accepts_iff sample_consts "112345 011000 011000\n".toList (fun _ => default) 0
      (by decide) (by decide) (by decide)).2.2.1 (by decide),
    (m_al_read_row_accepts_iff sample_consts "112345 011000\n012345".toList (fun _ => default) 0
      (by decide) (by decide) (by decide)).2.2.2.2.1⟩

/-! ### The chunk reader -/

theorem nth_line_succ (stream : List Char) (k : Nat) :
    nth_line stream (k + 1) = nth_line (stream.drop (first_line stream).length) k := rfl

theorem nth_line_zero (stream : List Char) : nth_line stream 0 = first_line stream := rfl

theorem after_rows_succ (K : MapConsts) (stream : List Char) (k : Nat) :
    after_rows K (k + 1) stream = after_rows K k (row_rest K stream) := rfl

/-- The loop of `m_al_read_pfchunk`, described through the rows read one after
the other from the stream. -/
theorem m_al_read_pfchunk_loop_spec (K : MapConsts) (n : Nat) :
    ∀ (i : Nat) (stream : List Char) (tiles : Nat → Tile),
      ((m_al_read_pfchunk_loop K n i stream tiles).ok = true
          ↔ ∀ k, k < n → row_ok K (after_rows K k stream))
        ∧ ((m_al_read_pfchunk_loop K n i stream tiles).ok = true →
            (m_al_read_pfchunk_loop K n i stream tiles).stream = after_rows K n stream)
        ∧ ((m_al_read_pfchunk_loop K n i stream tiles).ok = true →
            ∀ k, k < n → ∀ c tok,
              (split_tokens row_delim (row_line K (after_rows K k stream)))[c]? = some tok →
              (m_al_read_pfchunk_loop K n i stream tiles).tiles
                  ((i + k) * K.TILES_PER_CHUNK_WIDTH + c) = decode_tile tok)
        ∧ (∀ k, k < n → (∀ j, j < k → row_ok K (after_rows K j stream)) →
            ¬ row_ok K (after_rows K k stream) →
              (m_al_read_pfchunk_loop K n i stream tiles).ok = false
                ∧ (m_al_read_pfchunk_loop K n i stream tiles).stream
                    = after_rows K (k + 1) stream)
        ∧ (∀ j, j < i * K.TILES_PER_CHUNK_WIDTH →
            (m_al_read_pfchunk_loop K n i stream tiles).tiles j = tiles j) := by
  induction n with
  | zero =>
    intro i stream tiles
    refine ⟨by simp [m_al_read_pfchunk_loop], fun _ => rfl, fun _ k hk => by omega,
      fun k hk => by omega, fun j _ => rfl⟩
  | succ n ih =>
    intro i stream tiles
    obtain ⟨r1, r2, r3, r4⟩ :=
      m_al_read_row_general K stream tiles (i * K.TILES_PER_CHUNK_WIDTH)
    by_cases hrow : (m_al_read_row K stream tiles (i * K.TILES_PER_CHUNK_WIDTH)).ok = false
    · have hstep : m_al_read_pfchunk_loop K (n + 1) i stream tiles
          = { m_al_read_row K stream tiles (i * K.TILES_PER_CHUNK_WIDTH) with ok := false } := by
        simp [m_al_read_pfchunk_loop, hrow]
      have hnot : ¬ row_ok K (after_rows K 0 stream) := by
        show ¬ row_ok K stream
        rw [← r1, hrow]
        simp
      rw [hstep]
      refine ⟨?_, by simp, by simp, fun k hk hprev hk2 => ?_, fun j hj => r4 j (Or.inl hj)⟩
      · simp only [Bool.false_eq_true, false_iff, not_forall]
        exact ⟨0, by omega, hnot⟩
      · cases k with
        | zero => exact ⟨rfl, r2⟩
        | succ k => exact absurd (hprev 0 (by omega)) hnot
    · have hrow1 : (m_al_read_row K stream tiles (i * K.TILES_PER_CHUNK_WIDTH)).ok = true := by
        simpa using hrow
      have hacc : row_ok K stream := r1.mp hrow1
      have hstep : m_al_read_pfchunk_loop K (n + 1) i stream tiles
          = m_al_read_pfchunk_loop K n (i + 1)
              (m_al_read_row K stream tiles (i * K.TILES_PER_CHUNK_WIDTH)).stream
              (m_al_read_row K stream tiles (i * K.TILES_PER_CHUNK_WIDTH)).tiles := by
        simp [m_al_read_pfchunk_loop, hrow1]
      rw [hstep, r2]
      obtain ⟨l1, l2, l3, l4, l5⟩ := ih (i + 1) (row_rest K stream)
        (m_al_read_row K stream tiles (i * K.TILES_PER_CHUNK_WIDTH)).tiles
      refine ⟨?_, fun hok => l2 hok, fun hok k hk c tok hc => ?_, fun k hk hprev hk2 => ?_,
        fun j hj => ?_⟩
      · rw [l1]
        constructor
        · intro h k hk
          cases k with
          | zero => exact hacc
          | succ k => rw [after_rows_succ]; exact h k (by omega)
        · intro h k hk
          rw [← after_rows_succ]
          exact h (k + 1) (by omega)
      · cases k with
        | zero =>
          have hc0 : (split_tokens row_delim (row_line K stream))[c]? = some tok := hc
          have hcw : c < K.TILES_PER_CHUNK_WIDTH := by
            have := (List.getElem?_eq_some_iff.mp hc0).1
            have := hacc.2.1
            omega
          rw [l5 _ (by rw [Nat.add_zero, Nat.add_mul, Nat.one_mul]; omega), Nat.add_zero]
          exact r3 hrow1 c tok hc0
        | succ k =>
          rw [after_rows_succ] at hc
          have e : i + (k + 1) = i + 1 + k := by omega
          rw [e]
          exact l3 hok k (by omega) c tok hc
      · cases k with
        | zero => exact absurd hacc hk2
        | succ k =>
          rw [after_rows_succ] at hk2
          exact l4 k (by omega)
            (fun j hj => by rw [← after_rows_succ]; exact hprev (j + 1) (by omega)) hk2
      · rw [l5 j (by rw [Nat.add_mul]; omega)]
        exact r4 j (Or.inl hj)

/-- When the first `n` lines of a stream fit in the line buffer, `n` calls of
`READ_LINE` consume exactly these lines. -/
theorem after_rows_eq_drop_lines (K : MapConsts) (n : Nat) :
    ∀ stream : List Char,
      (∀ k, k < n → (nth_line stream k).length < K.MAX_LINE_LEN) →
      after_rows K n stream = drop_lines n stream := by
  induction n with
  | zero => intro stream _; rfl
  | succ n ih =>
    intro stream h
    have h0 := h 0 (by omega)
    rw [nth_line_zero] at h0
    rw [after_rows_succ, row_rest_of_fit K stream h0]
    exact ih _ (fun k hk => by rw [← nth_line_succ]; exact h (k + 1) (by omega))

/-- C7: `m_al_read_pfchunk` calls `m_al_read_row` on `TILES_PER_CHUNK_HEIGHT`
consecutive rows of the stream and succeeds if and only if each of these calls
succeeds; on success it has consumed that many rows and the tile at index
`r * TILES_PER_CHUNK_WIDTH + c` is the decode of token `c` of row `r`; at the
first failing row `r` it fails with the stream left just after row `r`, no
later row being read. When the lines of the stream fit in the line buffer
(and hold no NUL), the rows read are the lines of the stream. -/
theorem m_al_read_pfchunk_rows (K : MapConsts) (stream : List Char) (tiles : Nat → Tile) :
    ((m_al_read_pfchunk K stream tiles).ok = true
        ↔ ∀ r, r < K.TILES_PER_CHUNK_HEIGHT →
            (m_al_read_row K (after_rows K r stream) tiles (r * K.TILES_PER_CHUNK_WIDTH)).ok = true)
      ∧ ((m_al_read_pfchunk K stream tiles).ok = true →
          (m_al_read_pfchunk K stream tiles).stream
            = after_rows K K.TILES_PER_CHUNK_HEIGHT stream)
      ∧ ((m_al_read_pfchunk K stream tiles).ok = true →
          ∀ r, r < K.TILES_PER_CHUNK_HEIGHT → ∀ c tok,
            (split_tokens row_delim (row_line K (after_rows K r stream)))[c]? = some tok →
            (m_al_read_pfchunk K stream tiles).tiles (r * K.TILES_PER_CHUNK_WIDTH + c)
              = (m_al_parse_tile tok default).2)
      ∧ (∀ r, r < K.TILES_PER_CHUNK_HEIGHT →
          (∀ j, j < r →
            (m_al_read_row K (after_rows K j stream) tiles (j * K.TILES_PER_CHUNK_WIDTH)).ok
              = true) →
          (m_al_read_row K (after_rows K r stream) tiles (r * K.TILES_PER_CHUNK_WIDTH)).ok = false →
          (m_al_read_pfchunk K stream tiles).ok = false
            ∧ (m_al_read_pfchunk K stream tiles).stream = after_rows K (r + 1) stream)
      ∧ ((∀ r, r < K.TILES_PER_CHUNK_HEIGHT →
            (nth_line stream r).length < K.MAX_LINE_LEN ∧ NUL ∉ nth_line stream r) →
          ∀ r, (r ≤ K.TILES_PER_CHUNK_HEIGHT → after_rows K r stream = drop_lines r stream)
            ∧ (r < K.TILES_PER_CHUNK_HEIGHT →
                row_line K (after_rows K r stream) = nth_line stream r)) := by
  obtain ⟨l1, l2, l3, l4, _⟩ :=
    m_al_read_pfchunk_loop_spec K K.TILES_PER_CHUNK_HEIGHT 0 stream tiles
  have hrow : ∀ r, (m_al_read_row K (after_rows K r stream) tiles
      (r * K.TILES_PER_CHUNK_WIDTH)).ok = true ↔ row_ok K (after_rows K r stream) :=
    fun r => (m_al_read_row_general K _ tiles _).1
  refine ⟨?_, l2, fun hok r hr c tok hc => ?_, fun r hr hprev hfail => ?_, fun hlines r => ?_⟩
  · unfold m_al_read_pfchunk
    rw [l1]
    exact forall_congr' fun r => imp_congr_right fun _ => (hrow r).symm
  · have := l3 hok r hr c tok hc
    rw [Nat.zero_add] at this
    exact this
  · refine l4 r hr (fun j hj => (hrow j).mp (hprev j hj)) ?_
    rw [← hrow r, hfail]
    simp
  · have hdrop : ∀ m, m ≤ K.TILES_PER_CHUNK_HEIGHT → after_rows K m stream = drop_lines m stream :=
      fun m hm => after_rows_eq_drop_lines K m stream (fun k hk => (hlines k (by omega)).1)
    refine ⟨hdrop r, fun hr => ?_⟩
    rw [hdrop r (by omega)]
    exact row_line_of_fit K _ (hlines r hr).1 (hlines r hr).2

/-- Witness of `m_al_read_pfchunk_rows`, for chunks of 2 by 2 tiles: two good
rows are read and the rest of the stream is left; when the second row is short
the read fails; the rows are the lines of the text. -/
theorem m_al_read_pfchunk_rows_witness :
    (m_al_read_pfchunk sample_consts "112345 011000\n012345\t999999\nrest".toList
        (fun _ => default)).ok = true
      ∧ ((m_al_read_pfchunk sample_consts "112345 011000\n012345\nrest".toList
            (fun _ => default)).ok = false
          ∧ (m_al_read_pfchunk sample_consts "112345 011000\n012345\nrest".toList
              (fun _ => default)).stream
            = after_rows sample_consts (1 + 1) "112345 011000\n012345\nrest".toList)
      ∧ (∀ r, (r ≤ sample_consts.TILES_PER_CHUNK_HEIGHT →
            after_rows sample_consts r "112345 011000\n012345\t999999\nrest".toList
              = drop_lines r "112345 011000\n012345\t999999\nrest".toList)
          ∧ (r < sample_consts.TILES_PER_CHUNK_HEIGHT →
              row_line sample_consts
                  (after_rows sample_consts r "112345 011000\n012345\t999999\nrest".toList)
                = nth_line "112345 011000\n012345\t999999\nrest".toList r)) :=
  ⟨(m_al_read_pfchunk_rows sample_consts "112345 011000\n012345\t999999\nrest".toList
      (fun _ => default)).1.mpr (by decide),
    (m_al_read_pfchunk_rows sample_consts "112345 011000\n012345\nrest".toList
      (fun _ => default)).2.2.2.1 1 (by decide) (by decide) (by decide),
    (m_al_read_pfchunk_rows sample_consts "112345 011000\n012345\t999999\nrest".toList
      (fun _ => default)).2.2.2.2 (by decide)⟩

/-! ### The size computation -/

/-- C8: when neither the product of the row and column counts nor the total
overflows, `M_AL_BuffSizeFromHeader` returns `sizeof(map) + (num_rows*num_cols)
* (sizeof(pfchunk) + R_AL_PrivBuffSizeForChunk(TILES_PER_CHUNK_WIDTH,
TILES_PER_CHUNK_HEIGHT, num_materials))`; and, overflow or not, two headers
that agree on the three fields give the same size. -/
theorem M_AL_BuffSizeFromHeader_exact (K : MapConsts)
    (R_AL_PrivBuffSizeForChunk : Nat → Nat → Nat → Nat) (header : pfmap_hdr)
    (hprod : header.num_rows * header.num_cols < UINT_RANGE)
    (htotal : K.sizeof_map + (header.num_rows * header.num_cols)
        * (K.sizeof_pfchunk + R_AL_PrivBuffSizeForChunk K.TILES_PER_CHUNK_WIDTH
            K.TILES_PER_CHUNK_HEIGHT header.num_materials) < SIZE_RANGE) :
    M_AL_BuffSizeFromHeader K R_AL_PrivBuffSizeForChunk header
        = K.sizeof_map + (header.num_rows * header.num_cols)
            * (K.sizeof_pfchunk + R_AL_PrivBuffSizeForChunk K.TILES_PER_CHUNK_WIDTH
                K.TILES_PER_CHUNK_HEIGHT header.num_materials)
      ∧ ∀ other : pfmap_hdr, other.num_rows = header.num_rows
          → other.num_cols = header.num_cols → other.num_materials = header.num_materials
          → M_AL_BuffSizeFromHeader K R_AL_PrivBuffSizeForChunk other
              = M_AL_BuffSizeFromHeader K R_AL_PrivBuffSizeForChunk header := by
  constructor
  · unfold M_AL_BuffSizeFromHeader
    simp only [Nat.mod_eq_of_lt hprod]
    rw [← Nat.add_mod, ← Nat.add_mod K.sizeof_pfchunk, Nat.add_mod K.sizeof_map, Nat.mul_mod,
      Nat.mod_mod, ← Nat.mul_mod, ← Nat.add_mod]
    exact Nat.mod_eq_of_lt htotal
  · intro other h1 h2 h3
    simp only [M_AL_BuffSizeFromHeader, h1, h2, h3]

/-- Witness of `M_AL_BuffSizeFromHeader_exact`: a header of one chunk and two
materials. -/
theorem M_AL_BuffSizeFromHeader_exact_witness :
    M_AL_BuffSizeFromHeader sample_consts sample_priv_size ⟨2, 1, 1, []⟩
        = 32 + (1 * 1) * (104 + sample_priv_size 2 2 2)
      ∧ ∀ other : pfmap_hdr, other.num_rows = 1 → other.num_cols = 1 → other.num_materials = 2
          → M_AL_BuffSizeFromHeader sample_consts sample_priv_size other
              = M_AL_BuffSizeFromHeader sample_consts sample_priv_size ⟨2, 1, 1, []⟩ :=
  M_AL_BuffSizeFromHeader_exact sample_consts sample_priv_size ⟨2, 1, 1, []⟩ (by decide)
    (by decide)

/-! ### The tile geometry -/

/-- C9: `R_GL_VerticesFromTile` performs 36 copies, to the indices 0 to 35 of
`out` in increasing order, hence to each of them exactly once, and leaves the
rest of `out` as it was; face number `i` in the order top, bottom, front, back,
left, right ends up in `out[6 i .. 6 i + 5]` as its corners NW, NE, SW (first
triangle) and SE, SW, NE (second triangle). -/
theorem R_GL_VerticesFromTile_layout (R : RenderConsts) (E : TileTypes) (tile : Tile)
    (out : Nat → vertex) (r c : Nat) :
    (R_GL_VerticesFromTile_memcpys R E tile r c).map Prod.fst = List.range 36
      ∧ emitted_at (R_GL_VerticesFromTile R E tile out r c) 0 (top R E tile r c)
      ∧ emitted_at (R_GL_VerticesFromTile R E tile out r c) 1 (bot R tile r c)
      ∧ emitted_at (R_GL_VerticesFromTile R E tile out r c) 2 (front R E tile r c)
      ∧ emitted_at (R_GL_VerticesFromTile R E tile out r c) 3 (back R E tile r c)
      ∧ emitted_at (R_GL_VerticesFromTile R E tile out r c) 4 (left R E tile r c)
      ∧ emitted_at (R_GL_VerticesFromTile R E tile out r c) 5 (right R E tile r c)
      ∧ ∀ j, 36 ≤ j → R_GL_VerticesFromTile R E tile out r c j = out j := by
  refine ⟨rfl, ?_, ?_, ?_, ?_, ?_, ?_, ?_⟩
  · exact ⟨rfl, rfl, rfl, rfl, rfl, rfl⟩
  · exact ⟨rfl, rfl, rfl, rfl, rfl, rfl⟩
  · exact ⟨rfl, rfl, rfl, rfl, rfl, rfl⟩
  · exact ⟨rfl, rfl, rfl, rfl, rfl, rfl⟩
  · exact ⟨rfl, rfl, rfl, rfl, rfl, rfl⟩
  · exact ⟨rfl, rfl, rfl, rfl, rfl, rfl⟩
  · intro j hj
    have hne : ∀ k, k < 36 → ¬ j = k := fun k hk => by omega
    simp [R_GL_VerticesFromTile, R_GL_VerticesFromTile_memcpys, faces, face_memcpys,
      VERTS_PER_FACE, List.range, List.range.loop, store_vertex, hne]

/-- C10: each of the four corners NW, NE, SE, SW of the top face, as built and
as written to `out[0]`, `out[1]`, `out[3]`, `out[2]`, has the height
`base_height * Y_COORDS_PER_TILE`, plus `ramp_height * Y_COORDS_PER_TILE`
exactly when the raised predicate of that very corner holds for the tile. -/
theorem top_face_corner_heights (R : RenderConsts) (E : TileTypes) (tile : Tile)
    (out : Nat → vertex) (r c : Nat) :
    ((top R E tile r c).nw.pos.y = corner_height R tile (top_nw_raised E tile)
        ∧ (top R E tile r c).ne.pos.y = corner_height R tile (top_ne_raised E tile)
        ∧ (top R E tile r c).se.pos.y = corner_height R tile (top_se_raised E tile)
        ∧ (top R E tile r c).sw.pos.y = corner_height R tile (top_sw_raised E tile))
      ∧ (R_GL_VerticesFromTile R E tile out r c 0).pos.y
          = corner_height R tile (top_nw_raised E tile)
      ∧ (R_GL_VerticesFromTile R E tile out r c 1).pos.y
          = corner_height R tile (top_ne_raised E tile)
      ∧ (R_GL_VerticesFromTile R E tile out r c 3).pos.y
          = corner_height R tile (top_se_raised E tile)
      ∧ (R_GL_VerticesFromTile R E tile out r c 2).pos.y
          = corner_height R tile (top_sw_raised E tile) := by
  have hnw : (top R E tile r c).nw.pos.y = corner_height R tile (top_nw_raised E tile) := by
    cases h : top_nw_raised E tile <;> simp [top, corner_height, h, mul_comm]
  have hne : (top R E tile r c).ne.pos.y = corner_height R tile (top_ne_raised E tile) := by
    cases h : top_ne_raised E tile <;> simp [top, corner_height, h, mul_comm]
  have hse : (top R E tile r c).se.pos.y = corner_height R tile (top_se_raised E tile) := by
    cases h : top_se_raised E tile <;> simp [top, corner_height, h, mul_comm]
  have hsw : (top R E tile r c).sw.pos.y = corner_height R tile (top_sw_raised E tile) := by
    cases h : top_sw_raised E tile <;> simp [top, corner_height, h, mul_comm]
  exact ⟨⟨hnw, hne, hse, hsw⟩, hnw, hne, hse, hsw⟩

/-! ### The map dump -/

/-- Every tile is written as five characters, for `type`, `pathable`,
`base_height`, `top_mat_idx` and `sides_mat_idx`, followed by a space except
in the last column: the format string has five conversions for six arguments,
and `ramp_height` is never written. -/
theorem M_AL_DumpMap_tile_eq (K : MapConsts) (tile : Tile) (c : Nat) :
    M_AL_DumpMap_tile K tile c
      = [Char.ofNat ((to_char tile.type + 48) % 256).toNat,
          Char.ofNat ((to_char (bool_val tile.pathable) + 48) % 256).toNat,
          Char.ofNat ((to_char tile.base_height + 48) % 256).toNat,
          Char.ofNat ((to_char tile.top_mat_idx + 48) % 256).toNat,
          Char.ofNat ((to_char tile.sides_mat_idx + 48) % 256).toNat]
        ++ (if (c : Int) ≠ (K.TILES_PER_CHUNK_WIDTH : Int) - 1 then [' '] else []) := by
  have h48 : char_val '0' = 48 := by decide
  simp only [M_AL_DumpMap_tile, h48]
  rfl

/-- C2, evaluated on the sample map (one chunk of 2 by 2 tiles, each of type 1,
pathable, base height 2, materials 3 and 4, ramp height 5): the text written is
made of the five-character tokens `11234`, where the claim has the
six-character tokens `112345`. -/
theorem M_AL_DumpMap_sample :
    M_AL_DumpMap sample_consts sample_map = "11234 11234\n11234 11234\n".toList
      ∧ M_AL_DumpMap sample_consts sample_map ≠ "112345 112345\n112345 112345\n".toList := by
  decide

/-! ### Reading back a dump -/

theorem foldl_append_init (f : Nat → List Char) (l : List Nat) (init : List Char) :
    l.foldl (fun written i => written ++ f i) init
      = init ++ l.foldl (fun written i => written ++ f i) [] := by
  induction l generalizing init with
  | nil => simp
  | cons a l ih =>
    simp only [List.foldl_cons, List.nil_append]
    rw [ih (init ++ f a), ih (f a), List.append_assoc]

theorem foldl_append_range_pos (f : Nat → List Char) (n : Nat) (h : 0 < n) :
    ∃ tail, (List.range n).foldl (fun written i => written ++ f i) [] = f 0 ++ tail
      ∧ (n = 1 → tail = []) := by
  obtain ⟨m, rfl⟩ : ∃ m, n = m + 1 := ⟨_, (Nat.succ_pred_eq_of_pos h).symm⟩
  rw [List.range_succ_eq_map, List.foldl_cons, List.nil_append, foldl_append_init]
  refine ⟨_, rfl, fun h1 => ?_⟩
  have : m = 0 := by omega
  subst this
  rfl

theorem digit_plain (v : Int) (h0 : 0 ≤ v) (h9 : v ≤ 9) :
    plain_char (Char.ofNat ((to_char v + 48) % 256).toNat) := by
  interval_cases v <;> exact ⟨by decide, by decide⟩

theorem bool_plain (b : Bool) :
    plain_char (Char.ofNat ((to_char (bool_val b) + 48) % 256).toNat) := by
  cases b <;> exact ⟨by decide, by decide⟩

/-- The text written for a map with at least one chunk, when the chunk
dimensions are positive, starts with the five characters of its first tile
followed by a delimiter. -/
theorem M_AL_DumpMap_head (K : MapConsts) (map : Map) (hw : 0 < K.TILES_PER_CHUNK_WIDTH)
    (hh : 0 < K.TILES_PER_CHUNK_HEIGHT) (hn : 0 < (map.width * map.height).toNat) :
    ∃ sep rest, is_delim row_delim sep = true
      ∧ M_AL_DumpMap K map
        = [Char.ofNat ((to_char (map.chunks 0 0).type + 48) % 256).toNat,
            Char.ofNat ((to_char (bool_val (map.chunks 0 0).pathable) + 48) % 256).toNat,
            Char.ofNat ((to_char (map.chunks 0 0).base_height + 48) % 256).toNat,
            Char.ofNat ((to_char (map.chunks 0 0).top_mat_idx + 48) % 256).toNat,
            Char.ofNat ((to_char (map.chunks 0 0).sides_mat_idx + 48) % 256).toNat]
          ++ sep :: rest := by
  obtain ⟨t1, e1, _⟩ := foldl_append_range_pos
    (fun i => M_AL_DumpMap_chunk K (map.chunks i)) _ hn
  have hrow : ∀ curr : Nat → Tile, ∃ t2, M_AL_DumpMap_chunk K curr
      = ((List.range K.TILES_PER_CHUNK_WIDTH).foldl
          (fun written c => written ++ M_AL_DumpMap_tile K (curr (0 * K.TILES_PER_CHUNK_WIDTH + c)) c)
          [] ++ ['\n']) ++ t2 := by
    intro curr
    have key : ∀ (l : List Nat) (init : List Char),
        l.foldl (fun written r =>
          (List.range K.TILES_PER_CHUNK_WIDTH).foldl
              (fun written c =>
                written ++ M_AL_DumpMap_tile K (curr (r * K.TILES_PER_CHUNK_WIDTH + c)) c)
              written
            ++ fprintf "\n".toList []) init
        = l.foldl (fun written r => written ++
            ((List.range K.TILES_PER_CHUNK_WIDTH).foldl
              (fun written c =>
                written ++ M_AL_DumpMap_tile K (curr (r * K.TILES_PER_CHUNK_WIDTH + c)) c)
              [] ++ ['\n'])) init := by
      intro l
      induction l with
      | nil => intro init; rfl
      | cons a l ih =>
        intro init
        simp only [List.foldl_cons]
        rw [ih, foldl_append_init _ _ init]
        simp [fprintf, List.append_assoc]
    unfold M_AL_DumpMap_chunk
    rw [key]
    obtain ⟨t2, e2, _⟩ := foldl_append_range_pos (fun r =>
      (List.range K.TILES_PER_CHUNK_WIDTH).foldl
        (fun written c =>
          written ++ M_AL_DumpMap_tile K (curr (r * K.TILES_PER_CHUNK_WIDTH + c)) c)
        [] ++ ['\n']) _ hh
    exact ⟨t2, e2⟩
  obtain ⟨t2, e2⟩ := hrow (map.chunks 0)
  obtain ⟨t3, e3, ht3⟩ := foldl_append_range_pos
    (fun c => M_AL_DumpMap_tile K (map.chunks 0 (0 * K.TILES_PER_CHUNK_WIDTH + c)) c) _ hw
  unfold M_AL_DumpMap
  rw [e1, e2, e3]
  simp only [Nat.zero_mul, Nat.add_zero, M_AL_DumpMap_tile_eq, List.append_assoc]
  by_cases hc : ((0 : Nat) : Int) ≠ (K.TILES_PER_CHUNK_WIDTH : Int) - 1
  · rw [if_pos hc]
    exact ⟨' ', _, by decide, rfl⟩
  · rw [if_neg hc]
    have hw1 : K.TILES_PER_CHUNK_WIDTH = 1 := by
      have : ((0 : Nat) : Int) = (K.TILES_PER_CHUNK_WIDTH : Int) - 1 := by simpa using hc
      omega
    rw [ht3 hw1]
    exact ⟨'\n', _, by decide, rfl⟩

theorem fgets_chars_plain (tok : List Char) (hnl : ∀ ch ∈ tok, ch ≠ '\n') :
    ∀ (k : Nat) (rest : List Char),
      (fgets_chars k (tok ++ rest)).1
        = if k ≤ tok.length then tok.take k else tok ++ (fgets_chars (k - tok.length) rest).1 := by
  induction tok with
  | nil =>
    intro k rest
    cases k with
    | zero => rfl
    | succ k => simp
  | cons c t ih =>
    intro k rest
    cases k with
    | zero => rfl
    | succ k =>
      have hc : c ≠ '\n' := hnl c (List.mem_cons_self _ _)
      have ih' := ih (fun ch hch => hnl ch (List.mem_cons_of_mem _ hch)) k rest
      have e : fgets_chars (k + 1) (c :: (t ++ rest))
          = ((fgets_chars k (t ++ rest)).1.cons c, (fgets_chars k (t ++ rest)).2) := by
        simp [fgets_chars, hc]
      rw [List.cons_append, e]
      simp only [List.length_cons, Nat.add_le_add_iff_right, List.take_succ_cons,
        Nat.add_sub_add_right]
      rw [ih']
      split_ifs <;> rfl

theorem c_str_plain_append (tok rest : List Char) (h : ∀ ch ∈ tok, plain_char ch) :
    c_str (tok ++ rest) = tok ++ c_str rest := by
  induction tok with
  | nil => rfl
  | cons c t ih =>
    have hc : (c != NUL) = true := by simpa using (h c (List.mem_cons_self _ _)).2
    have := ih (fun ch hch => h ch (List.mem_cons_of_mem _ hch))
    unfold c_str at this ⊢
    rw [List.cons_append, @List.takeWhile_cons_of_pos _ (fun ch => ch != NUL) c _ hc, this,
      List.cons_append]

/-- A stream that starts with five plain characters followed by a delimiter
does not start with a row that `m_al_read_row` accepts, whatever the positive
chunk width and the size of the line buffer. -/
theorem not_row_ok_of_short_token (K : MapConsts) (tok rest : List Char) (sep : Char)
    (hw : 0 < K.TILES_PER_CHUNK_WIDTH) (hlen : tok.length = 5)
    (hplain : ∀ ch ∈ tok, plain_char ch) (hsep : is_delim row_delim sep = true) :
    ¬ row_ok K (tok ++ sep :: rest) := by
  have hnl : ∀ ch ∈ tok, ch ≠ '\n' := by
    intro ch hch h
    have := (hplain ch hch).1
    rw [h] at this
    exact absurd this (by decide)
  have hnd : ∀ l : List Char, (∀ ch ∈ l, plain_char ch) → ∀ ch ∈ l, is_delim row_delim ch = false :=
    fun l hl ch hch => (hl ch hch).1
  have hparse : ∀ t : List Char, (∀ ch ∈ t, plain_char ch) → t.length ≤ 5 →
      (m_al_parse_tile t default).1 = false := by
    intro t ht hle
    have : strlen t = t.length := strlen_of_no_NUL t (fun hmem => (ht NUL hmem).2 rfl)
    have hne : ¬ strlen t = 6 := by omega
    cases hp : (m_al_parse_tile t default).1 with
    | false => rfl
    | true => exact absurd ((parse_ok_iff t default).mp hp) hne
  obtain ⟨c0, t0, htok⟩ : ∃ c0 t0, tok = c0 :: t0 := by
    cases tok with
    | nil => simp at hlen
    | cons c0 t0 => exact ⟨c0, t0, rfl⟩
  rintro ⟨_, hcount, hall⟩
  have hline : row_line K (tok ++ sep :: rest)
      = c_str ((fgets_chars (K.MAX_LINE_LEN - 1) (tok ++ sep :: rest)).1.take
          (K.MAX_LINE_LEN - 1)) := by
    rw [htok]
    rfl
  rw [hline, fgets_chars_plain tok hnl] at hcount hall
  by_cases hk : K.MAX_LINE_LEN - 1 ≤ tok.length
  · rw [if_pos hk, List.take_take, Nat.min_self] at hcount hall
    have hsub : ∀ ch ∈ tok.take (K.MAX_LINE_LEN - 1), plain_char ch :=
      fun ch hch => hplain ch (List.mem_of_mem_take hch)
    have hcs : c_str (tok.take (K.MAX_LINE_LEN - 1)) = tok.take (K.MAX_LINE_LEN - 1) := by
      have := c_str_plain_append (tok.take (K.MAX_LINE_LEN - 1)) [] hsub
      simpa [c_str] using this
    rw [hcs] at hcount hall
    by_cases hemp : tok.take (K.MAX_LINE_LEN - 1) = []
    · rw [hemp, split_tokens_nil] at hcount
      simp at hcount
      omega
    · rw [split_tokens_single _ _ hemp (hnd _ hsub)] at hall
      have h1 := hall _ (List.mem_singleton_self _)
      have h2 := hparse _ hsub (by rw [List.length_take]; omega)
      rw [h1] at h2
      exact absurd h2 (by simp)
  · rw [if_neg hk] at hcount hall
    obtain ⟨j, hj⟩ : ∃ j, K.MAX_LINE_LEN - 1 - tok.length = j + 1 := ⟨_, (Nat.succ_pred_eq_of_pos (by omega)).symm⟩
    obtain ⟨m, hm⟩ : ∃ m, (fgets_chars (j + 1) (sep :: rest)).1 = sep :: m := by
      unfold fgets_chars
      split_ifs
      · exact ⟨_, rfl⟩
      · exact ⟨_, rfl⟩
    rw [hj, hm, List.take_append_eq_append_take, List.take_of_length_le (by omega), hj,
      List.take_succ_cons, c_str_plain_append _ _ hplain] at hall
    have hsepnul : (sep != NUL) = true := by
      simp only [bne_iff_ne, ne_eq]
      rintro rfl
      exact absurd hsep (by decide)
    have hcs : c_str (sep :: List.take j m) = sep :: c_str (List.take j m) := by
      unfold c_str
      rw [@List.takeWhile_cons_of_pos _ (fun ch => ch != NUL) sep _ hsepnul]
    rw [hcs, split_tokens_first _ _ _ _ (by rw [htok]; simp) (hnd _ hplain) hsep] at hall
    have h1 := hall _ (List.mem_cons_self _ _)
    have h2 := hparse _ hplain (by omega)
    rw [h1] at h2
    exact absurd h2 (by simp)

/-- For every map with at least one chunk whose first tile has its fields in
the range 0 to 9, and for all positive chunk dimensions and every size of the
line buffer, the chunk reader rejects the text written by `M_AL_DumpMap`. -/
theorem dump_then_read_fails (K : MapConsts) (map : Map) (tiles : Nat → Tile)
    (hw : 0 < K.TILES_PER_CHUNK_WIDTH) (hh : 0 < K.TILES_PER_CHUNK_HEIGHT)
    (hn : 0 < (map.width * map.height).toNat) (hrange : tile_in_range (map.chunks 0 0)) :
    (m_al_read_pfchunk K (M_AL_DumpMap K map) tiles).ok = false := by
  obtain ⟨sep, rest, hsep, hdump⟩ := M_AL_DumpMap_head K map hw hh hn
  obtain ⟨⟨a0, a1⟩, ⟨b0, b1⟩, ⟨c0, c1⟩, ⟨d0, d1⟩, _⟩ := hrange
  have hplain : ∀ ch ∈ [Char.ofNat ((to_char (map.chunks 0 0).type + 48) % 256).toNat,
      Char.ofNat ((to_char (bool_val (map.chunks 0 0).pathable) + 48) % 256).toNat,
      Char.ofNat ((to_char (map.chunks 0 0).base_height + 48) % 256).toNat,
      Char.ofNat ((to_char (map.chunks 0 0).top_mat_idx + 48) % 256).toNat,
      Char.ofNat ((to_char (map.chunks 0 0).sides_mat_idx + 48) % 256).toNat],
      plain_char ch := by
    intro ch hch
    simp only [List.mem_cons, List.mem_singleton, List.not_mem_nil, or_false] at hch
    rcases hch with h | h | h | h | h
    · rw [h]; exact digit_plain _ a0 a1
    · rw [h]; exact bool_plain _
    · rw [h]; exact digit_plain _ b0 b1
    · rw [h]; exact digit_plain _ c0 c1
    · rw [h]; exact digit_plain _ d0 d1
  have hnot := not_row_ok_of_short_token K
    [Char.ofNat ((to_char (map.chunks 0 0).type + 48) % 256).toNat,
      Char.ofNat ((to_char (bool_val (map.chunks 0 0).pathable) + 48) % 256).toNat,
      Char.ofNat ((to_char (map.chunks 0 0).base_height + 48) % 256).toNat,
      Char.ofNat ((to_char (map.chunks 0 0).top_mat_idx + 48) % 256).toNat,
      Char.ofNat ((to_char (map.chunks 0 0).sides_mat_idx + 48) % 256).toNat]
    rest sep hw rfl hplain hsep
  rw [← hdump] at hnot
  have hiff := (m_al_read_pfchunk_loop_spec K K.TILES_PER_CHUNK_HEIGHT 0 (M_AL_DumpMap K map)
    tiles).1
  cases hok : (m_al_read_pfchunk K (M_AL_DumpMap K map) tiles).ok with
  | false => rfl
  | true => exact absurd ((hiff.mp hok) 0 hh) hnot

/-- C1, evaluated on the sample map (one chunk of 2 by 2 tiles, every field of
every tile in the range 0 to 9): the chunk reader rejects the text that
`M_AL_DumpMap` wrote, whose first token `11234` has five characters; on the
text with the six-character tokens `112345` it succeeds and yields the tiles
of the map. -/
theorem dump_then_read_sample_fails :
    tile_in_range sample_tile
      ∧ (m_al_read_pfchunk sample_consts (M_AL_DumpMap sample_consts sample_map)
          (fun _ => default)).ok = false
      ∧ (split_tokens row_delim (row_line sample_consts (M_AL_DumpMap sample_consts sample_map))).head?
          = some "11234".toList
      ∧ (m_al_parse_tile "11234".toList default).1 = false
      ∧ (m_al_read_pfchunk sample_consts "112345 112345\n112345 112345\n".toList
          (fun _ => default)).ok = true
      ∧ (List.range 4).map
          (m_al_read_pfchunk sample_consts "112345 112345\n112345 112345\n".toList
            (fun _ => default)).tiles
          = (List.range 4).map (sample_map.chunks 0) := by
  refine ⟨?_, ?_, ?_, ?_, ?_, ?_⟩
  · unfold tile_in_range sample_tile
    decide
  · decide
  · decide
  · decide
  · decide
  · decide

/-! ### The raised-corner table -/

theorem tiletype_values_inj (E : TileTypes) (h : tiletypes_distinct E) (k j : Nat)
    (hk : k < 13) (hj : j < 13) :
    ((tiletype_values E).getD k 0 == (tiletype_values E).getD j 0) = decide (k = j) := by
  have hlen : (tiletype_values E).length = 13 := rfl
  rw [List.getD_eq_getElem _ _ (by omega), List.getD_eq_getElem _ _ (by omega)]
  have := @List.Nodup.getElem_inj_iff _ _ h k (by omega) j (by omega)
  by_cases hkj : k = j
  · subst hkj
    simp
  · simp [hkj, this]

/-- The four predicates on a tile whose type is enumerator number `k`. -/
theorem raised_of_index (E : TileTypes) (h : tiletypes_distinct E) (k : Nat) (hk : k < 13)
    (tile : Tile) (ht : tile.type = (tiletype_values E).getD k 0) :
    top_nw_raised E tile = (raised_flags k).1 ∧ top_ne_raised E tile = (raised_flags k).2.1
      ∧ top_sw_raised E tile = (raised_flags k).2.2.1
      ∧ top_se_raised E tile = (raised_flags k).2.2.2 := by
  have e := fun j hj => tiletype_values_inj E h k j hk hj
  have hnw : top_nw_raised E tile
      = (((tiletype_values E).getD k 0 == (tiletype_values E).getD 1 0)
        || ((tiletype_values E).getD k 0 == (tiletype_values E).getD 3 0)
        || ((tiletype_values E).getD k 0 == (tiletype_values E).getD 6 0)
        || ((tiletype_values E).getD k 0 == (tiletype_values E).getD 8 0)
        || ((tiletype_values E).getD k 0 == (tiletype_values E).getD 7 0)) := by
    rw [← ht]; rfl
  have hne : top_ne_raised E tile
      = (((tiletype_values E).getD k 0 == (tiletype_values E).getD 1 0)
        || ((tiletype_values E).getD k 0 == (tiletype_values E).getD 4 0)
        || ((tiletype_values E).getD k 0 == (tiletype_values E).getD 6 0)
        || ((tiletype_values E).getD k 0 == (tiletype_values E).getD 5 0)
        || ((tiletype_values E).getD k 0 == (tiletype_values E).getD 8 0)) := by
    rw [← ht]; rfl
  have hsw : top_sw_raised E tile
      = (((tiletype_values E).getD k 0 == (tiletype_values E).getD 2 0)
        || ((tiletype_values E).getD k 0 == (tiletype_values E).getD 3 0)
        || ((tiletype_values E).getD k 0 == (tiletype_values E).getD 8 0)) := by
    rw [← ht]; rfl
  have hse : top_se_raised E tile
      = (((tiletype_values E).getD k 0 == (tiletype_values E).getD 2 0)
        || ((tiletype_values E).getD k 0 == (tiletype_values E).getD 4 0)
        || ((tiletype_values E).getD k 0 == (tiletype_values E).getD 6 0)) := by
    rw [← ht]; rfl
  rw [hnw, hne, hsw, hse, e 1 (by decide), e 2 (by decide), e 3 (by decide), e 4 (by decide),
    e 5 (by decide), e 6 (by decide), e 7 (by decide), e 8 (by decide)]
  exact ⟨rfl, rfl, rfl, rfl⟩

/-- The height of each top-face corner, from its raised predicate. -/
theorem top_pos_y (R : RenderConsts) (E : TileTypes) (tile : Tile) (r c : Nat) :
    (top R E tile r c).nw.pos.y = corner_height R tile (top_nw_raised E tile)
      ∧ (top R E tile r c).ne.pos.y = corner_height R tile (top_ne_raised E tile)
      ∧ (top R E tile r c).sw.pos.y = corner_height R tile (top_sw_raised E tile)
      ∧ (top R E tile r c).se.pos.y = corner_height R tile (top_se_raised E tile) := by
  refine ⟨?_, ?_, ?_, ?_⟩
  · cases h : top_nw_raised E tile <;> simp [top, corner_height, h, mul_comm]
  · cases h : top_ne_raised E tile <;> simp [top, corner_height, h, mul_comm]
  · cases h : top_sw_raised E tile <;> simp [top, corner_height, h, mul_comm]
  · cases h : top_se_raised E tile <;> simp [top, corner_height, h, mul_comm]

/-- The heights of the four top-face corners of a tile whose type is enumerator
number `k`. -/
theorem top_heights_of_index (R : RenderConsts) (E : TileTypes) (h : tiletypes_distinct E)
    (k : Nat) (hk : k < 13) (tile : Tile) (ht : tile.type = (tiletype_values E).getD k 0)
    (r c : Nat) :
    top_heights R E tile r c
      = (corner_height R tile (raised_flags k).1, corner_height R tile (raised_flags k).2.1,
          corner_height R tile (raised_flags k).2.2.1,
          corner_height R tile (raised_flags k).2.2.2) := by
  obtain ⟨h1, h2, h3, h4⟩ := top_pos_y R E tile r c
  obtain ⟨f1, f2, f3, f4⟩ := raised_of_index E h k hk tile ht
  simp only [top_heights, h1, h2, h3, h4, f1, f2, f3, f4]

theorem sample_types_distinct : tiletypes_distinct sample_types := by
  unfold tiletypes_distinct
  decide

theorem corner_height_true (R : RenderConsts) (tile : Tile) :
    corner_height R tile true
      = tile.base_height * R.Y_COORDS_PER_TILE + tile.ramp_height * R.Y_COORDS_PER_TILE := by
  simp [corner_height]

theorem corner_height_false (R : RenderConsts) (tile : Tile) :
    corner_height R tile false = tile.base_height * R.Y_COORDS_PER_TILE := by
  simp [corner_height]

/-- C11: for a tile of type `RAMP_NS` (the enumerators having pairwise
different values), the predicates of the corners SW and SE hold and those of NW
and NE do not: the top-face corners SW and SE are at `base_height *
Y_COORDS_PER_TILE + ramp_height * Y_COORDS_PER_TILE` and the corners NW and NE
at `base_height * Y_COORDS_PER_TILE`. -/
theorem ramp_ns_top_corners (R : RenderConsts) (E : TileTypes) (tile : Tile) (r c : Nat)
    (hE : tiletypes_distinct E) (ht : tile.type = E.TILETYPE_RAMP_NS) :
    (top_sw_raised E tile = true ∧ top_se_raised E tile = true
        ∧ top_nw_raised E tile = false ∧ top_ne_raised E tile = false)
      ∧ (top R E tile r c).sw.pos.y
          = tile.base_height * R.Y_COORDS_PER_TILE + tile.ramp_height * R.Y_COORDS_PER_TILE
      ∧ (top R E tile r c).se.pos.y
          = tile.base_height * R.Y_COORDS_PER_TILE + tile.ramp_height * R.Y_COORDS_PER_TILE
      ∧ (top R E tile r c).nw.pos.y = tile.base_height * R.Y_COORDS_PER_TILE
      ∧ (top R E tile r c).ne.pos.y = tile.base_height * R.Y_COORDS_PER_TILE := by
  obtain ⟨f1, f2, f3, f4⟩ := raised_of_index E hE 2 (by decide) tile ht
  obtain ⟨h1, h2, h3, h4⟩ := top_pos_y R E tile r c
  have g1 : top_nw_raised E tile = false := f1
  have g2 : top_ne_raised E tile = false := f2
  have g3 : top_sw_raised E tile = true := f3
  have g4 : top_se_raised E tile = true := f4
  rw [g1, corner_height_false] at h1
  rw [g2, corner_height_false] at h2
  rw [g3, corner_height_true] at h3
  rw [g4, corner_height_true] at h4
  exact ⟨⟨g3, g4, g1, g2⟩, h3, h4, h1, h2⟩

/-- Witness of `ramp_ns_top_corners`: the sample ramp of base height 2 and ramp
height 3, with tiles 4 units high per height step. -/
theorem ramp_ns_top_corners_witness :
    (top_sw_raised sample_types sample_ramp_ns = true
        ∧ top_se_raised sample_types sample_ramp_ns = true
        ∧ top_nw_raised sample_types sample_ramp_ns = false
        ∧ top_ne_raised sample_types sample_ramp_ns = false)
      ∧ (top sample_extents sample_types sample_ramp_ns 0 0).sw.pos.y
          = sample_ramp_ns.base_height * sample_extents.Y_COORDS_PER_TILE
            + sample_ramp_ns.ramp_height * sample_extents.Y_COORDS_PER_TILE
      ∧ (top sample_extents sample_types sample_ramp_ns 0 0).se.pos.y
          = sample_ramp_ns.base_height * sample_extents.Y_COORDS_PER_TILE
            + sample_ramp_ns.ramp_height * sample_extents.Y_COORDS_PER_TILE
      ∧ (top sample_extents sample_types sample_ramp_ns 0 0).nw.pos.y
          = sample_ramp_ns.base_height * sample_extents.Y_COORDS_PER_TILE
      ∧ (top sample_extents sample_types sample_ramp_ns 0 0).ne.pos.y
          = sample_ramp_ns.base_height * sample_extents.Y_COORDS_PER_TILE :=
  ramp_ns_top_corners sample_extents sample_types sample_ramp_ns 0 0 sample_types_distinct rfl

/-- C12, as stated, fails: on the sample tile of type `CORNER_CONVEX_SW` (base
height 2, ramp height 3, 4 units per height step) the corner SW is at height
8, not raised, and the corner SE is at height 20, raised. -/
theorem convex_sw_raises_se_not_sw :
    sample_convex_sw.type = sample_types.TILETYPE_CORNER_CONVEX_SW
      ∧ (top sample_extents sample_types sample_convex_sw 0 0).sw.pos.y = 8
      ∧ (top sample_extents sample_types sample_convex_sw 0 0).sw.pos.y
          ≠ sample_convex_sw.base_height * sample_extents.Y_COORDS_PER_TILE
            + sample_convex_sw.ramp_height * sample_extents.Y_COORDS_PER_TILE
      ∧ (top sample_extents sample_types sample_convex_sw 0 0).se.pos.y = 20
      ∧ (top sample_extents sample_types sample_convex_sw 0 0).se.pos.y
          ≠ sample_convex_sw.base_height * sample_extents.Y_COORDS_PER_TILE := by
  refine ⟨rfl, ?_, ?_, ?_, ?_⟩ <;>
    norm_num [top, top_sw_raised, top_se_raised, sample_convex_sw, sample_types,
      sample_extents]

/-- C12, amended: for a tile of type `CORNER_CONVEX_SW` (the enumerators having
pairwise different values), the top-face corners NW, NE and SE are raised, to
`base_height * Y_COORDS_PER_TILE + ramp_height * Y_COORDS_PER_TILE`, and the
corner SW stays at `base_height * Y_COORDS_PER_TILE`. -/
theorem convex_sw_top_corners (R : RenderConsts) (E : TileTypes) (tile : Tile) (r c : Nat)
    (hE : tiletypes_distinct E) (ht : tile.type = E.TILETYPE_CORNER_CONVEX_SW) :
    (top_nw_raised E tile = true ∧ top_ne_raised E tile = true
        ∧ top_se_raised E tile = true ∧ top_sw_raised E tile = false)
      ∧ (top R E tile r c).nw.pos.y
          = tile.base_height * R.Y_COORDS_PER_TILE + tile.ramp_height * R.Y_COORDS_PER_TILE
      ∧ (top R E tile r c).ne.pos.y
          = tile.base_height * R.Y_COORDS_PER_TILE + tile.ramp_height * R.Y_COORDS_PER_TILE
      ∧ (top R E tile r c).se.pos.y
          = tile.base_height * R.Y_COORDS_PER_TILE + tile.ramp_height * R.Y_COORDS_PER_TILE
      ∧ (top R E tile r c).sw.pos.y = tile.base_height * R.Y_COORDS_PER_TILE := by
  obtain ⟨f1, f2, f3, f4⟩ := raised_of_index E hE 6 (by decide) tile ht
  obtain ⟨h1, h2, h3, h4⟩ := top_pos_y R E tile r c
  have g1 : top_nw_raised E tile = true := f1
  have g2 : top_ne_raised E tile = true := f2
  have g3 : top_sw_raised E tile = false := f3
  have g4 : top_se_raised E tile = true := f4
  rw [g1, corner_height_true] at h1
  rw [g2, corner_height_true] at h2
  rw [g3, corner_height_false] at h3
  rw [g4, corner_height_true] at h4
  exact ⟨⟨g1, g2, g4, g3⟩, h1, h2, h4, h3⟩

/-- Witness of `convex_sw_top_corners`: the sample corner tile. -/
theorem convex_sw_top_corners_witness :
    (top_nw_raised sample_types sample_convex_sw = true
        ∧ top_ne_raised sample_types sample_convex_sw = true
        ∧ top_se_raised sample_types sample_convex_sw = true
        ∧ top_sw_raised sample_types sample_convex_sw = false)
      ∧ (top sample_extents sample_types sample_convex_sw 0 0).nw.pos.y
          = sample_convex_sw.base_height * sample_extents.Y_COORDS_PER_TILE
            + sample_convex_sw.ramp_height * sample_extents.Y_COORDS_PER_TILE
      ∧ (top sample_extents sample_types sample_convex_sw 0 0).ne.pos.y
          = sample_convex_sw.base_height * sample_extents.Y_COORDS_PER_TILE
            + sample_convex_sw.ramp_height * sample_extents.Y_COORDS_PER_TILE
      ∧ (top sample_extents sample_types sample_convex_sw 0 0).se.pos.y
          = sample_convex_sw.base_height * sample_extents.Y_COORDS_PER_TILE
            + sample_convex_sw.ramp_height * sample_extents.Y_COORDS_PER_TILE
      ∧ (top sample_extents sample_types sample_convex_sw 0 0).sw.pos.y
          = sample_convex_sw.base_height * sample_extents.Y_COORDS_PER_TILE :=
  convex_sw_top_corners sample_extents sample_types sample_convex_sw 0 0 sample_types_distinct
    rfl

/-- The tile types `FLAT`, `CORNER_CONCAVE_NW`, `CORNER_CONVEX_NW`,
`CORNER_CONCAVE_NE` and `CORNER_CONVEX_NE` (numbers 0, 9, 10, 11, 12) occur in
none of the four predicates: a tile of any of these types has its four top
corners at `base_height * Y_COORDS_PER_TILE`. -/
theorem unraised_types (R : RenderConsts) (E : TileTypes) (hE : tiletypes_distinct E)
    (k : Nat) (hk : k = 0 ∨ k = 9 ∨ k = 10 ∨ k = 11 ∨ k = 12) (tile : Tile)
    (ht : tile.type = (tiletype_values E).getD k 0) (r c : Nat) :
    top_heights R E tile r c
      = (tile.base_height * R.Y_COORDS_PER_TILE, tile.base_height * R.Y_COORDS_PER_TILE,
          tile.base_height * R.Y_COORDS_PER_TILE, tile.base_height * R.Y_COORDS_PER_TILE) := by
  rw [top_heights_of_index R E hE k (by omega) tile ht r c]
  rcases hk with rfl | rfl | rfl | rfl | rfl <;>
    simp only [raised_flags, corner_height_false, Nat.reduceEqDiff, decide_False, Bool.or_self]

/-- The raised-corner flags tell apart the nine tile types that occur in the
predicates or are flat (numbers 0 to 8), and give the four remaining types
(numbers 9 to 12) the flags of the flat type. -/
theorem raised_flags_table :
    (∀ k1 : Fin 9, ∀ k2 : Fin 9, raised_flags k1 = raised_flags k2 → k1 = k2)
      ∧ raised_flags 9 = raised_flags 0 ∧ raised_flags 10 = raised_flags 0
      ∧ raised_flags 11 = raised_flags 0 ∧ raised_flags 12 = raised_flags 0 := by
  decide

/-- C13, evaluated on the sample tiles of type `FLAT` and `CORNER_CONVEX_NW`,
both of base height 2 and ramp height 3, with pairwise different enumerator
values: the two types differ and the heights of the four top corners are the
same, 8 at each corner. -/
theorem flat_and_convex_nw_same_heights :
    tiletypes_distinct sample_types
      ∧ sample_flat.type = sample_types.TILETYPE_FLAT
      ∧ sample_convex_nw.type = sample_types.TILETYPE_CORNER_CONVEX_NW
      ∧ sample_flat.type ≠ sample_convex_nw.type
      ∧ sample_flat.base_height = sample_convex_nw.base_height
      ∧ sample_flat.ramp_height = sample_convex_nw.ramp_height
      ∧ 0 < sample_flat.ramp_height
      ∧ top_heights sample_extents sample_types sample_flat 0 0 = (8, 8, 8, 8)
      ∧ top_heights sample_extents sample_types sample_convex_nw 0 0 = (8, 8, 8, 8) := by
  refine ⟨sample_types_distinct, rfl, rfl, by decide, rfl, rfl, by decide, ?_, ?_⟩ <;>
    norm_num [top_heights, top, top_nw_raised, top_ne_raised, top_sw_raised, top_se_raised,
      sample_flat, sample_convex_nw, sample_types, sample_extents]

/-! ### Flat tiles -/

theorem decode_011000 : decode_tile "011000".toList = ⟨0, true, 1, 0, 0, 0⟩ := by
  decide

theorem decode_010000 : decode_tile "010000".toList = ⟨0, true, 0, 0, 0, 0⟩ := by
  decide

/-- C18, as stated, fails: the token `011000` decodes to a tile of type 0 and
base height 1 (its third character is the base height), whose four top corners
are at height 4, one height step of 4 units, not at height 0. -/
theorem flat_token_corners_not_zero :
    (decode_tile "011000".toList).type = sample_types.TILETYPE_FLAT
      ∧ (decode_tile "011000".toList).base_height = 1
      ∧ top_heights sample_extents sample_types (decode_tile "011000".toList) 0 0 = (4, 4, 4, 4)
      ∧ (top sample_extents sample_types (decode_tile "011000".toList) 0 0).nw.pos.y ≠ 0 := by
  rw [decode_011000]
  refine ⟨rfl, rfl, ?_, ?_⟩ <;>
    norm_num [top_heights, top, top_nw_raised, top_ne_raised, top_sw_raised, top_se_raised,
      sample_types, sample_extents]

/-- C18, amended: for every tile of type `FLAT` (the enumerators having pairwise
different values), whatever its ramp height, the four top-face corners are at
the same height `base_height * Y_COORDS_PER_TILE`; when `FLAT` is the
enumerator 0, the tile decoded from the token `011000` is flat with base height
1 and has its four top corners at height `Y_COORDS_PER_TILE`, and the tile
decoded from `010000` has them at height 0. -/
theorem flat_top_corners (R : RenderConsts) (E : TileTypes) (tile : Tile) (r c : Nat)
    (hE : tiletypes_distinct E) (ht : tile.type = E.TILETYPE_FLAT) :
    top_heights R E tile r c
        = (tile.base_height * R.Y_COORDS_PER_TILE, tile.base_height * R.Y_COORDS_PER_TILE,
            tile.base_height * R.Y_COORDS_PER_TILE, tile.base_height * R.Y_COORDS_PER_TILE)
      ∧ (E.TILETYPE_FLAT = 0 →
          top_heights R E (decode_tile "011000".toList) r c
              = (R.Y_COORDS_PER_TILE, R.Y_COORDS_PER_TILE, R.Y_COORDS_PER_TILE,
                  R.Y_COORDS_PER_TILE)
            ∧ top_heights R E (decode_tile "010000".toList) r c = (0, 0, 0, 0)) := by
  refine ⟨unraised_types R E hE 0 (Or.inl rfl) tile ht r c, fun h0 => ⟨?_, ?_⟩⟩
  · rw [unraised_types R E hE 0 (Or.inl rfl) (decode_tile "011000".toList)
      (by rw [decode_011000]; exact h0.symm) r c, decode_011000]
    simp
  · rw [unraised_types R E hE 0 (Or.inl rfl) (decode_tile "010000".toList)
      (by rw [decode_010000]; exact h0.symm) r c, decode_010000]
    simp

/-- Witness of `flat_top_corners`: the sample flat tile, of ramp height 3. -/
theorem flat_top_corners_witness :
    top_heights sample_extents sample_types sample_flat 0 0
        = (sample_flat.base_height * sample_extents.Y_COORDS_PER_TILE,
            sample_flat.base_height * sample_extents.Y_COORDS_PER_TILE,
            sample_flat.base_height * sample_extents.Y_COORDS_PER_TILE,
            sample_flat.base_height * sample_extents.Y_COORDS_PER_TILE)
      ∧ top_heights sample_extents sample_types (decode_tile "011000".toList) 0 0
          = (sample_extents.Y_COORDS_PER_TILE, sample_extents.Y_COORDS_PER_TILE,
              sample_extents.Y_COORDS_PER_TILE, sample_extents.Y_COORDS_PER_TILE)
      ∧ top_heights sample_extents sample_types (decode_tile "010000".toList) 0 0
          = (0, 0, 0, 0) :=
  ⟨(flat_top_corners sample_extents sample_types sample_flat 0 0 sample_types_distinct rfl).1,
    (flat_top_corners sample_extents sample_types sample_flat 0 0 sample_types_distinct rfl).2
      rfl⟩

/-! ### Side faces, materials and the bottom face -/

/-- C14: each of the four side faces is a wall: its upper corners are the two
ends of an edge of the top face (south edge for the front face, north edge for
the back face, west edge for the left face, east edge for the right face) and
its lower corners are the bottom-face corners with the same `x` and `z`, `sw`
under `nw` and `se` under `ne`. -/
theorem side_faces_are_walls (R : RenderConsts) (E : TileTypes) (tile : Tile) (r c : Nat) :
    (is_wall R E tile r c (front R E tile r c)
        ∧ is_wall R E tile r c (back R E tile r c)
        ∧ is_wall R E tile r c (left R E tile r c)
        ∧ is_wall R E tile r c (right R E tile r c))
      ∧ ((front R E tile r c).nw.pos = (top R E tile r c).sw.pos
          ∧ (front R E tile r c).ne.pos = (top R E tile r c).se.pos
          ∧ (front R E tile r c).sw.pos = (bot R tile r c).se.pos
          ∧ (front R E tile r c).se.pos = (bot R tile r c).sw.pos)
      ∧ ((back R E tile r c).nw.pos = (top R E tile r c).nw.pos
          ∧ (back R E tile r c).ne.pos = (top R E tile r c).ne.pos
          ∧ (back R E tile r c).sw.pos = (bot R tile r c).ne.pos
          ∧ (back R E tile r c).se.pos = (bot R tile r c).nw.pos)
      ∧ ((left R E tile r c).nw.pos = (top R E tile r c).sw.pos
          ∧ (left R E tile r c).ne.pos = (top R E tile r c).nw.pos
          ∧ (left R E tile r c).sw.pos = (bot R tile r c).se.pos
          ∧ (left R E tile r c).se.pos = (bot R tile r c).ne.pos)
      ∧ ((right R E tile r c).nw.pos = (top R E tile r c).ne.pos
          ∧ (right R E tile r c).ne.pos = (top R E tile r c).se.pos
          ∧ (right R E tile r c).sw.pos = (bot R tile r c).nw.pos
          ∧ (right R E tile r c).se.pos = (bot R tile r c).sw.pos) := by
  refine ⟨⟨?_, ?_, ?_, ?_⟩, ⟨rfl, rfl, rfl, rfl⟩, ⟨rfl, rfl, rfl, rfl⟩, ⟨rfl, rfl, rfl, rfl⟩,
    ⟨rfl, rfl, rfl, rfl⟩⟩
  · refine ⟨Or.inr ?_, ?_, ?_, ⟨rfl, rfl⟩, ⟨rfl, rfl⟩⟩
    · simp [top_edges, front]
    · simp [bot_corners, front]
    · simp [bot_corners, front]
  · refine ⟨Or.inl ?_, ?_, ?_, ⟨rfl, rfl⟩, ⟨rfl, rfl⟩⟩
    · simp [top_edges, back]
    · simp [bot_corners, back]
    · simp [bot_corners, back]
  · refine ⟨Or.inl ?_, ?_, ?_, ⟨rfl, rfl⟩, ⟨rfl, rfl⟩⟩
    · simp [top_edges, left]
    · simp [bot_corners, left]
    · simp [bot_corners, left]
  · refine ⟨Or.inl ?_, ?_, ?_, ⟨rfl, rfl⟩, ⟨rfl, rfl⟩⟩
    · simp [top_edges, right]
    · simp [bot_corners, right]
    · simp [bot_corners, right]

/-- C15: on each of the four side faces the texture coordinates of the upper
corners are `(0, height / X_COORDS_PER_TILE)` at `nw` and `(1, height /
X_COORDS_PER_TILE)` at `ne`, where the height is the `y` of that corner, which
is the height of the top-face corner it joins, and `v` is 0 at the lower
corners; on a tile of type `RAMP_NS` with base height 2 and ramp height 3 both
upper corners of the front face have `v = (2 + 3) * Y_COORDS_PER_TILE /
X_COORDS_PER_TILE`. -/
theorem side_faces_uv (R : RenderConsts) (E : TileTypes) (tile : Tile) (r c : Nat)
    (pathable : Bool) (top_mat sides_mat : Int) :
    (wall_uv R (front R E tile r c) ∧ wall_uv R (back R E tile r c)
        ∧ wall_uv R (left R E tile r c) ∧ wall_uv R (right R E tile r c))
      ∧ ((front R E tile r c).nw.pos.y = corner_height R tile (top_sw_raised E tile)
          ∧ (front R E tile r c).ne.pos.y = corner_height R tile (top_se_raised E tile)
          ∧ (back R E tile r c).nw.pos.y = corner_height R tile (top_nw_raised E tile)
          ∧ (back R E tile r c).ne.pos.y = corner_height R tile (top_ne_raised E tile)
          ∧ (left R E tile r c).nw.pos.y = corner_height R tile (top_sw_raised E tile)
          ∧ (left R E tile r c).ne.pos.y = corner_height R tile (top_nw_raised E tile)
          ∧ (right R E tile r c).nw.pos.y = corner_height R tile (top_ne_raised E tile)
          ∧ (right R E tile r c).ne.pos.y = corner_height R tile (top_se_raised E tile))
      ∧ (front R E ⟨E.TILETYPE_RAMP_NS, pathable, 2, top_mat, sides_mat, 3⟩ r c).nw.uv.y
          = (2 + 3) * R.Y_COORDS_PER_TILE / R.X_COORDS_PER_TILE
      ∧ (front R E ⟨E.TILETYPE_RAMP_NS, pathable, 2, top_mat, sides_mat, 3⟩ r c).ne.uv.y
          = (2 + 3) * R.Y_COORDS_PER_TILE / R.X_COORDS_PER_TILE := by
  obtain ⟨h1, h2, h3, h4⟩ := top_pos_y R E tile r c
  refine ⟨⟨⟨rfl, rfl, rfl, rfl⟩, ⟨rfl, rfl, rfl, rfl⟩, ⟨rfl, rfl, rfl, rfl⟩, ⟨rfl, rfl, rfl, rfl⟩⟩,
    ⟨h3, h4, h1, h2, h3, h1, h2, h4⟩, ?_, ?_⟩
  · simp [front, top, top_sw_raised, V_COORD]
    ring
  · simp [front, top, top_se_raised, V_COORD]
    ring

/-- C16: the twelve vertices `out[0 .. 11]`, of the top and bottom faces, carry
the material index `top_mat_idx` of the tile, and the twenty-four vertices
`out[12 .. 35]`, of the front, back, left and right faces, carry
`sides_mat_idx`. -/
theorem vertex_materials (R : RenderConsts) (E : TileTypes) (tile : Tile)
    (out : Nat → vertex) (r c : Nat) :
    (∀ j : Fin 12, (R_GL_VerticesFromTile R E tile out r c j).material_idx = tile.top_mat_idx)
      ∧ (∀ j : Fin 24,
          (R_GL_VerticesFromTile R E tile out r c (12 + j)).material_idx = tile.sides_mat_idx) := by
  constructor
  · intro j
    fin_cases j <;> rfl
  · intro j
    fin_cases j <;> rfl

theorem float_of_nat_small (n : Nat) (h : n < 2 ^ 24) : float_of_nat n = n := by
  have hulp : float_ulp 64 n = 1 := by
    have e : float_ulp (63 + 1) n = if n < 2 ^ 24 then 1 else 2 * float_ulp 63 (n / 2) := rfl
    exact e.trans (if_pos h)
  unfold float_of_nat
  rw [hulp, Nat.mod_one, if_pos (by decide), Nat.div_one, Nat.mul_one]

theorem size_t_mul_small (a b : Nat) (h : a * b < SIZE_RANGE) : size_t_mul a b = a * b := by
  unfold size_t_mul
  rw [← Nat.mul_mod, Nat.mod_eq_of_lt h]

theorem size_t_add_small (a b : Nat) (h : a + b < SIZE_RANGE) : size_t_add a b = a + b := by
  unfold size_t_add
  rw [← Nat.add_mod, Nat.mod_eq_of_lt h]

/-- The converted product `(float)(a * X)` for a small product: no wrap, no
rounding. -/
theorem float_of_product_small (a X : Nat) (h : a * X < 2 ^ 24) :
    float_of_nat (size_t_mul a X) = a * X := by
  have hlt : a * X < SIZE_RANGE := by
    unfold SIZE_RANGE
    omega
  rw [size_t_mul_small a X hlt, float_of_nat_small _ h]

/-- The converted product `(float)((a + 1) * X)` for a small product: no wrap,
no rounding. -/
theorem float_of_succ_product_small (a X : Nat) (h : (a + 1) * X < 2 ^ 24) :
    float_of_nat (size_t_mul (size_t_add a 1) X) = (a + 1) * X := by
  by_cases hX : X = 0
  · subst hX
    have : size_t_mul (size_t_add a 1) 0 = 0 := by simp [size_t_mul]
    rw [this, Nat.mul_zero]
    decide
  · have hX1 : 1 ≤ X := Nat.one_le_iff_ne_zero.mpr hX
    have hle : a + 1 ≤ (a + 1) * X := Nat.le_mul_of_pos_right _ hX1
    have ha : a + 1 < SIZE_RANGE := by
      unfold SIZE_RANGE
      omega
    rw [size_t_add_small a 1 ha]
    exact float_of_product_small (a + 1) X h

/-- Within the bounds where neither `size_t` wraps nor `float` rounds, the
bottom face in machine arithmetic is the bottom face in exact arithmetic. -/
theorem bot_machine_eq_bot (X Y Z : Nat) (tile : Tile) (r c : Nat)
    (hc : (c + 1) * X < 2 ^ 24) (hr : (r + 1) * Z < 2 ^ 24) (hY : Y < 2 ^ 24) :
    bot_machine X Y Z tile r c = bot (extents_of X Y Z) tile r c := by
  have hc0 : c * X < 2 ^ 24 := by
    have : c * X ≤ (c + 1) * X := Nat.mul_le_mul_right _ (Nat.le_succ c)
    omega
  have hr0 : r * Z < 2 ^ 24 := by
    have : r * Z ≤ (r + 1) * Z := Nat.mul_le_mul_right _ (Nat.le_succ r)
    omega
  simp only [bot_machine, bot, extents_of, float_of_succ_product_small c X hc,
    float_of_succ_product_small r Z hr, float_of_product_small c X hc0,
    float_of_product_small r Z hr0, float_of_nat_small Y hY]
  push_cast
  rfl

/-- C17, as stated, fails for large columns (tile extents 8, 4, 8, row 0): at
column `2 ^ 24` the conversion to `float` rounds `(c+1) * 8` down to `c * 8`, so
the corners NW and NE have the same `x`, -134217728, where the claim has
-134217736 for NW; at column `2 ^ 61` the `size_t` product wraps and the
corners are at `x = -8` and `x = 0`. -/
theorem bottom_face_large_column :
    ((bot_machine 8 4 8 sample_flat 0 (2 ^ 24)).nw.pos.x = -134217728
        ∧ (bot_machine 8 4 8 sample_flat 0 (2 ^ 24)).ne.pos.x = -134217728
        ∧ (bot_machine 8 4 8 sample_flat 0 (2 ^ 24)).nw.pos.x
            ≠ -((((2 ^ 24 : Nat) : ℚ) + 1) * ((8 : Nat) : ℚ)))
      ∧ ((bot_machine 8 4 8 sample_flat 0 (2 ^ 61)).nw.pos.x = -8
        ∧ (bot_machine 8 4 8 sample_flat 0 (2 ^ 61)).ne.pos.x = 0
        ∧ (bot_machine 8 4 8 sample_flat 0 (2 ^ 61)).nw.pos.x
            ≠ -((((2 ^ 61 : Nat) : ℚ) + 1) * ((8 : Nat) : ℚ))) := by
  have h1 : float_of_nat (size_t_mul (size_t_add (2 ^ 24) 1) 8) = 134217728 := by decide
  have h2 : float_of_nat (size_t_mul (2 ^ 24) 8) = 134217728 := by decide
  have h3 : float_of_nat (size_t_mul (size_t_add (2 ^ 61) 1) 8) = 8 := by decide
  have h4 : float_of_nat (size_t_mul (2 ^ 61) 8) = 0 := by decide
  simp only [bot_machine, h1, h2, h3, h4]
  norm_num

/-- C17, amended: for every tile and every row `r` and column `c` small enough
that `(c+1) * X_COORDS_PER_TILE` and `(r+1) * Z_COORDS_PER_TILE` stay below
`2 ^ 24` (no `size_t` wrap, no `float` rounding; `Y_COORDS_PER_TILE` below
`2 ^ 24` too), the four corners of the bottom face are at `y =
-Y_COORDS_PER_TILE`, over the four corners of the rectangle with `x` in
`{-(c+1) * X_COORDS_PER_TILE, -c * X_COORDS_PER_TILE}` and `z` in `{r *
Z_COORDS_PER_TILE, (r+1) * Z_COORDS_PER_TILE}`, and this face is what is written
to `out[6 .. 11]`; for every row and column, bounded or not, the face is that
of the tile that keeps only the material index `top_mat_idx`, so it depends on
no other field of the tile. -/
theorem bottom_face_rectangle (X Y Z : Nat) (E : TileTypes) (tile : Tile)
    (out : Nat → vertex) (r c : Nat) (hc : (c + 1) * X < 2 ^ 24)
    (hr : (r + 1) * Z < 2 ^ 24) (hY : Y < 2 ^ 24) :
    ((bot_machine X Y Z tile r c).nw.pos = ⟨-(((c : ℚ) + 1) * X), -(Y : ℚ), (r : ℚ) * Z⟩
        ∧ (bot_machine X Y Z tile r c).ne.pos = ⟨-((c : ℚ) * X), -(Y : ℚ), (r : ℚ) * Z⟩
        ∧ (bot_machine X Y Z tile r c).se.pos
          = ⟨-((c : ℚ) * X), -(Y : ℚ), ((r : ℚ) + 1) * Z⟩
        ∧ (bot_machine X Y Z tile r c).sw.pos
          = ⟨-(((c : ℚ) + 1) * X), -(Y : ℚ), ((r : ℚ) + 1) * Z⟩)
      ∧ (∀ r2 c2 : Nat, bot_machine X Y Z tile r2 c2
          = bot_machine X Y Z ⟨0, false, 0, tile.top_mat_idx, 0, 0⟩ r2 c2)
      ∧ bot_machine X Y Z tile r c = bot (extents_of X Y Z) tile r c
      ∧ emitted_at (R_GL_VerticesFromTile (extents_of X Y Z) E tile out r c) 1
          (bot_machine X Y Z tile r c) := by
  have heq := bot_machine_eq_bot X Y Z tile r c hc hr hY
  refine ⟨?_, fun _ _ => rfl, heq, ?_⟩
  · rw [heq]
    refine ⟨?_, ?_, ?_, ?_⟩ <;> simp [bot, extents_of]
  · rw [heq]
    exact ⟨rfl, rfl, rfl, rfl, rfl, rfl⟩

/-- Witness of `bottom_face_rectangle`: the sample flat tile at row 3, column
5, with tile extents 8, 4, 8. -/
theorem bottom_face_rectangle_witness :
    ((bot_machine 8 4 8 sample_flat 3 5).nw.pos
          = ⟨-((((5 : Nat) : ℚ) + 1) * ((8 : Nat) : ℚ)), -((4 : Nat) : ℚ),
              ((3 : Nat) : ℚ) * ((8 : Nat) : ℚ)⟩
        ∧ (bot_machine 8 4 8 sample_flat 3 5).ne.pos
          = ⟨-(((5 : Nat) : ℚ) * ((8 : Nat) : ℚ)), -((4 : Nat) : ℚ),
              ((3 : Nat) : ℚ) * ((8 : Nat) : ℚ)⟩
        ∧ (bot_machine 8 4 8 sample_flat 3 5).se.pos
          = ⟨-(((5 : Nat) : ℚ) * ((8 : Nat) : ℚ)), -((4 : Nat) : ℚ),
              (((3 : Nat) : ℚ) + 1) * ((8 : Nat) : ℚ)⟩
        ∧ (bot_machine 8 4 8 sample_flat 3 5).sw.pos
          = ⟨-((((5 : Nat) : ℚ) + 1) * ((8 : Nat) : ℚ)), -((4 : Nat) : ℚ),
              (((3 : Nat) : ℚ) + 1) * ((8 : Nat) : ℚ)⟩)
      ∧ (∀ r2 c2 : Nat, bot_machine 8 4 8 sample_flat r2 c2
          = bot_machine 8 4 8 ⟨0, false, 0, sample_flat.top_mat_idx, 0, 0⟩ r2 c2)
      ∧ bot_machine 8 4 8 sample_flat 3 5 = bot (extents_of 8 4 8) sample_flat 3 5
      ∧ emitted_at
          (R_GL_VerticesFromTile (extents_of 8 4 8) sample_types sample_flat blank_vertices 3 5)
          1 (bot_machine 8 4 8 sample_flat 3 5) :=
  bottom_face_rectangle 8 4 8 sample_types sample_flat blank_vertices 3 5 (by decide)
    (by decide) (by decide)

/-! ### The packed layout -/

/-- The loop of `M_AL_InitMapFromStream`: how many iterations are entered and
which offsets are assigned. -/
theorem M_AL_InitMapFromStream_loop_spec (K : MapConsts) (env : LoadEnv) (header : pfmap_hdr)
    (sz : Nat) (n : Nat) :
    ∀ (i ub : Nat) (stream : List Char) (map : map_block),
      i ≤ (M_AL_InitMapFromStream_loop K env header sz n i ub stream map).entered
        ∧ (M_AL_InitMapFromStream_loop K env header sz n i ub stream map).entered ≤ i + n
        ∧ ((M_AL_InitMapFromStream_loop K env header sz n i ub stream map).ok = true →
            (M_AL_InitMapFromStream_loop K env header sz n i ub stream map).entered = i + n)
        ∧ (∀ d, i + d < (M_AL_InitMapFromStream_loop K env header sz n i ub stream map).entered →
            (M_AL_InitMapFromStream_loop K env header sz n i ub stream map).map.render_private
                (i + d) = ub + d * sz)
        ∧ (∀ j, j < i →
            (M_AL_InitMapFromStream_loop K env header sz n i ub stream map).map.render_private j
              = map.render_private j) := by
  induction n with
  | zero =>
    intro i ub stream map
    refine ⟨Nat.le_refl _, Nat.le_refl _, fun _ => rfl, fun d hd => ?_, fun j _ => rfl⟩
    simp only [M_AL_InitMapFromStream_loop] at hd
    omega
  | succ n ih =>
    intro i ub stream map
    have hfail : ∀ res : InitResult, res.ok = false → res.entered = i + 1 →
        res.map.render_private = (fun j => if j = i then ub else map.render_private j) →
        i ≤ res.entered ∧ res.entered ≤ i + (n + 1) ∧ (res.ok = true → res.entered = i + (n + 1))
          ∧ (∀ d, i + d < res.entered → res.map.render_private (i + d) = ub + d * sz)
          ∧ (∀ j, j < i → res.map.render_private j = map.render_private j) := by
      intro res h1 h2 h3
      refine ⟨by omega, by omega, fun h => ?_, fun d hd => ?_, fun j hj => ?_⟩
      · rw [h1] at h
        exact absurd h (by simp)
      · have hd0 : d = 0 := by omega
        subst hd0
        rw [h3]
        simp
      · rw [h3]
        have : j ≠ i := by omega
        simp [this]
    rw [M_AL_InitMapFromStream_loop]
    by_cases h1 : (m_al_read_pfchunk K stream (map.tiles i)).ok = false
    · rw [if_pos h1]
      exact hfail _ rfl rfl rfl
    rw [if_neg h1]
    by_cases h2 : env.fopen_ok i = false
    · rw [if_pos h2]
      exact hfail _ rfl rfl rfl
    rw [if_neg h2]
    by_cases h3 : env.R_AL_InitPrivFromTilesAndMats header.num_materials
        (m_al_read_pfchunk K stream (map.tiles i)).tiles ub = false
    · rw [if_pos h3]
      exact hfail _ rfl rfl rfl
    rw [if_neg h3]
    · obtain ⟨a1, a2, a3, a4, a5⟩ := ih (i + 1) (ub + sz)
        (m_al_read_pfchunk K stream (map.tiles i)).stream
        { map with
          render_private := fun j => if j = i then ub else map.render_private j
          tiles := fun j =>
            if j = i then (m_al_read_pfchunk K stream (map.tiles i)).tiles else map.tiles j }
      refine ⟨by omega, by omega, fun h => by rw [a3 h]; omega, fun d hd => ?_, fun j hj => ?_⟩
      · cases d with
        | zero =>
          rw [a5 (i + 0) (by omega)]
          simp
        | succ d =>
          have e : i + (d + 1) = i + 1 + d := by omega
          rw [e] at hd ⊢
          rw [a4 d hd]
          ring
      · rw [a5 j (by omega)]
        have : j ≠ i := by omega
        simp [this]

/-- C19: when neither the number of chunks `n = num_rows * num_cols` nor the
total size overflows, every chunk `i` whose iteration is entered by
`M_AL_InitMapFromStream` (all `n` of them when the load succeeds) is assigned
the region of `R = R_AL_PrivBuffSizeForChunk(..)` bytes at offset `sizeof(map) +
n * sizeof(pfchunk) + i * R`; the regions assigned are pairwise disjoint, start
after the map header and the chunk array, end at or before
`M_AL_BuffSizeFromHeader(header)`, and the region of the last chunk ends
exactly there. -/
theorem M_AL_InitMapFromStream_layout (K : MapConsts) (env : LoadEnv) (header : pfmap_hdr)
    (stream : List Char) (outmap : map_block)
    (hprod : header.num_rows * header.num_cols < UINT_RANGE)
    (htotal : K.sizeof_map + (header.num_rows * header.num_cols)
        * (K.sizeof_pfchunk + env.R_AL_PrivBuffSizeForChunk K.TILES_PER_CHUNK_WIDTH
            K.TILES_PER_CHUNK_HEIGHT header.num_materials) < SIZE_RANGE) :
    ((M_AL_InitMapFromStream K env header stream outmap).entered
          ≤ header.num_rows * header.num_cols
        ∧ ((M_AL_InitMapFromStream K env header stream outmap).ok = true →
            (M_AL_InitMapFromStream K env header stream outmap).entered
              = header.num_rows * header.num_cols))
      ∧ (∀ i, i < (M_AL_InitMapFromStream K env header stream outmap).entered →
          (M_AL_InitMapFromStream K env header stream outmap).map.render_private i
            = K.sizeof_map + (header.num_rows * header.num_cols) * K.sizeof_pfchunk
              + i * env.R_AL_PrivBuffSizeForChunk K.TILES_PER_CHUNK_WIDTH
                  K.TILES_PER_CHUNK_HEIGHT header.num_materials)
      ∧ (∀ i j, i < j → j < (M_AL_InitMapFromStream K env header stream outmap).entered →
          (M_AL_InitMapFromStream K env header stream outmap).map.render_private i
              + env.R_AL_PrivBuffSizeForChunk K.TILES_PER_CHUNK_WIDTH K.TILES_PER_CHUNK_HEIGHT
                  header.num_materials
            ≤ (M_AL_InitMapFromStream K env header stream outmap).map.render_private j)
      ∧ (∀ i, i < (M_AL_InitMapFromStream K env header stream outmap).entered →
          K.sizeof_map + (header.num_rows * header.num_cols) * K.sizeof_pfchunk
              ≤ (M_AL_InitMapFromStream K env header stream outmap).map.render_private i
            ∧ (M_AL_InitMapFromStream K env header stream outmap).map.render_private i
                + env.R_AL_PrivBuffSizeForChunk K.TILES_PER_CHUNK_WIDTH
                    K.TILES_PER_CHUNK_HEIGHT header.num_materials
              ≤ M_AL_BuffSizeFromHeader K env.R_AL_PrivBuffSizeForChunk header)
      ∧ (∀ i, i + 1 = header.num_rows * header.num_cols →
          i < (M_AL_InitMapFromStream K env header stream outmap).entered →
          (M_AL_InitMapFromStream K env header stream outmap).map.render_private i
              + env.R_AL_PrivBuffSizeForChunk K.TILES_PER_CHUNK_WIDTH
                  K.TILES_PER_CHUNK_HEIGHT header.num_materials
            = M_AL_BuffSizeFromHeader K env.R_AL_PrivBuffSizeForChunk header) := by
  have hsize : M_AL_BuffSizeFromHeader K env.R_AL_PrivBuffSizeForChunk header
      = K.sizeof_map + (header.num_rows * header.num_cols)
          * (K.sizeof_pfchunk + env.R_AL_PrivBuffSizeForChunk K.TILES_PER_CHUNK_WIDTH
              K.TILES_PER_CHUNK_HEIGHT header.num_materials) := by
    unfold M_AL_BuffSizeFromHeader
    simp only [Nat.mod_eq_of_lt hprod]
    rw [← Nat.add_mod, ← Nat.add_mod K.sizeof_pfchunk, Nat.add_mod K.sizeof_map, Nat.mul_mod,
      Nat.mod_mod, ← Nat.mul_mod, ← Nat.add_mod]
    exact Nat.mod_eq_of_lt htotal
  generalize hR : env.R_AL_PrivBuffSizeForChunk K.TILES_PER_CHUNK_WIDTH
    K.TILES_PER_CHUNK_HEIGHT header.num_materials = R at htotal hsize ⊢
  generalize hn : header.num_rows * header.num_cols = n at hprod htotal hsize ⊢
  obtain ⟨_, a2, a3, a4, _⟩ := M_AL_InitMapFromStream_loop_spec K env header (R % SIZE_RANGE)
    (n % UINT_RANGE) 0
    (K.sizeof_map + ((n % UINT_RANGE) * (K.sizeof_pfchunk % SIZE_RANGE)) % SIZE_RANGE) stream
    { outmap with width := header.num_cols, height := header.num_rows, pos := ⟨0, 0, 0⟩ }
  have hres : M_AL_InitMapFromStream K env header stream outmap
      = M_AL_InitMapFromStream_loop K env header (R % SIZE_RANGE) (n % UINT_RANGE) 0
          (K.sizeof_map + ((n % UINT_RANGE) * (K.sizeof_pfchunk % SIZE_RANGE)) % SIZE_RANGE)
          stream
          { outmap with width := header.num_cols, height := header.num_rows, pos := ⟨0, 0, 0⟩ } := by
    unfold M_AL_InitMapFromStream
    rw [hR, hn]
  rw [hres, hsize]
  generalize M_AL_InitMapFromStream_loop K env header (R % SIZE_RANGE) (n % UINT_RANGE) 0
    (K.sizeof_map + ((n % UINT_RANGE) * (K.sizeof_pfchunk % SIZE_RANGE)) % SIZE_RANGE) stream
    { outmap with width := header.num_cols, height := header.num_rows, pos := ⟨0, 0, 0⟩ }
    = res at a2 a3 a4 ⊢
  rw [Nat.mod_eq_of_lt hprod, Nat.zero_add] at a2 a3
  rw [Nat.mod_eq_of_lt hprod] at a4
  have hoff : ∀ i, i < res.entered →
      res.map.render_private i = K.sizeof_map + n * K.sizeof_pfchunk + i * R := by
    intro i hi
    have hn1 : 1 ≤ n := by omega
    have hmul : n * (K.sizeof_pfchunk + R) < SIZE_RANGE := by omega
    have hpfR : K.sizeof_pfchunk + R ≤ n * (K.sizeof_pfchunk + R) := Nat.le_mul_of_pos_left _ hn1
    have hpf : K.sizeof_pfchunk < SIZE_RANGE := by omega
    have hRlt : R < SIZE_RANGE := by omega
    have hnpf : n * K.sizeof_pfchunk < SIZE_RANGE := by
      have : n * K.sizeof_pfchunk ≤ n * (K.sizeof_pfchunk + R) :=
        Nat.mul_le_mul_left _ (Nat.le_add_right _ _)
      omega
    have := a4 i (by rw [Nat.zero_add]; exact hi)
    rw [Nat.zero_add, Nat.mod_eq_of_lt hpf, Nat.mod_eq_of_lt hnpf, Nat.mod_eq_of_lt hRlt] at this
    exact this
  have hexp : n * (K.sizeof_pfchunk + R) = n * K.sizeof_pfchunk + n * R := Nat.mul_add _ _ _
  refine ⟨⟨a2, a3⟩, hoff, fun i j hij hj => ?_, fun i hi => ⟨?_, ?_⟩, fun i hin hi => ?_⟩
  · rw [hoff i (by omega), hoff j hj]
    have : (i + 1) * R ≤ j * R := Nat.mul_le_mul_right _ (by omega)
    rw [Nat.add_mul, Nat.one_mul] at this
    omega
  · rw [hoff i hi]
    omega
  · rw [hoff i hi, hexp]
    have : (i + 1) * R ≤ n * R := Nat.mul_le_mul_right _ (by omega)
    rw [Nat.add_mul, Nat.one_mul] at this
    omega
  · rw [hoff i hi, hexp, ← hin, Nat.add_mul (i) 1 R, Nat.one_mul]
    omega

/-- Witness of `M_AL_InitMapFromStream_layout`: a load of two chunks that
succeeds; the private buffers are at the offsets 240 and 10680 and the second
ends at the size 21120 of the block. -/
theorem M_AL_InitMapFromStream_layout_witness :
    (M_AL_InitMapFromStream sample_consts sample_env sample_header sample_text
          blank_block).entered = sample_header.num_rows * sample_header.num_cols
      ∧ (M_AL_InitMapFromStream sample_consts sample_env sample_header sample_text
            blank_block).map.render_private 1
          = sample_consts.sizeof_map
            + (sample_header.num_rows * sample_header.num_cols) * sample_consts.sizeof_pfchunk
            + 1 * sample_env.R_AL_PrivBuffSizeForChunk sample_consts.TILES_PER_CHUNK_WIDTH
                sample_consts.TILES_PER_CHUNK_HEIGHT sample_header.num_materials
      ∧ (M_AL_InitMapFromStream sample_consts sample_env sample_header sample_text
              blank_block).map.render_private 0
            + sample_env.R_AL_PrivBuffSizeForChunk sample_consts.TILES_PER_CHUNK_WIDTH
                sample_consts.TILES_PER_CHUNK_HEIGHT sample_header.num_materials
          ≤ (M_AL_InitMapFromStream sample_consts sample_env sample_header sample_text
              blank_block).map.render_private 1
      ∧ (M_AL_InitMapFromStream sample_consts sample_env sample_header sample_text
              blank_block).map.render_private 1
            + sample_env.R_AL_PrivBuffSizeForChunk sample_consts.TILES_PER_CHUNK_WIDTH
                sample_consts.TILES_PER_CHUNK_HEIGHT sample_header.num_materials
          = M_AL_BuffSizeFromHeader sample_consts sample_env.R_AL_PrivBuffSizeForChunk
              sample_header :=
  ⟨(M_AL_InitMapFromStream_layout sample_consts sample_env sample_header sample_text blank_block
      (by decide) (by decide)).1.2 (by decide),
    (M_AL_InitMapFromStream_layout sample_consts sample_env sample_header sample_text blank_block
      (by decide) (by decide)).2.1 1 (by decide),
    (M_AL_InitMapFromStream_layout sample_consts sample_env sample_header sample_text blank_block
      (by decide) (by decide)).2.2.1 0 1 (by decide) (by decide),
    (M_AL_InitMapFromStream_layout sample_consts sample_env sample_header sample_text blank_block
      (by decide) (by decide)).2.2.2.2 1 (by decide) (by decide)⟩

/-! ### Orientation of the faces -/

/-- The orientation of the two triangles of each face, as a function of the
tile extents and of the heights of the top corners. -/
theorem face_orientations (R : RenderConsts) (E : TileTypes) (tile : Tile) (r c : Nat) :
    (orientation_first (top R E tile r c) = R.X_COORDS_PER_TILE * R.Z_COORDS_PER_TILE
        ∧ orientation_second (top R E tile r c) = R.X_COORDS_PER_TILE * R.Z_COORDS_PER_TILE)
      ∧ (orientation_first (bot R tile r c) = R.X_COORDS_PER_TILE * R.Z_COORDS_PER_TILE
        ∧ orientation_second (bot R tile r c) = R.X_COORDS_PER_TILE * R.Z_COORDS_PER_TILE)
      ∧ (orientation_first (front R E tile r c)
          = R.X_COORDS_PER_TILE * (R.Y_COORDS_PER_TILE + (top R E tile r c).sw.pos.y)
        ∧ orientation_second (front R E tile r c)
          = R.X_COORDS_PER_TILE * (R.Y_COORDS_PER_TILE + (top R E tile r c).se.pos.y))
      ∧ (orientation_first (back R E tile r c)
          = -(R.X_COORDS_PER_TILE * (R.Y_COORDS_PER_TILE + (top R E tile r c).nw.pos.y))
        ∧ orientation_second (back R E tile r c)
          = -(R.X_COORDS_PER_TILE * (R.Y_COORDS_PER_TILE + (top R E tile r c).ne.pos.y)))
      ∧ (orientation_first (left R E tile r c)
          = -(R.Z_COORDS_PER_TILE * (R.Y_COORDS_PER_TILE + (top R E tile r c).sw.pos.y))
        ∧ orientation_second (left R E tile r c)
          = -(R.Z_COORDS_PER_TILE * (R.Y_COORDS_PER_TILE + (top R E tile r c).nw.pos.y)))
      ∧ (orientation_first (right R E tile r c)
          = -(R.Z_COORDS_PER_TILE * (R.Y_COORDS_PER_TILE + (top R E tile r c).ne.pos.y))
        ∧ orientation_second (right R E tile r c)
          = -(R.Z_COORDS_PER_TILE * (R.Y_COORDS_PER_TILE + (top R E tile r c).se.pos.y))) := by
  refine ⟨⟨?_, ?_⟩, ⟨?_, ?_⟩, ⟨?_, ?_⟩, ⟨?_, ?_⟩, ⟨?_, ?_⟩, ⟨?_, ?_⟩⟩ <;>
    simp only [orientation_first, orientation_second, vec3_dot, vec3_cross, vec3_sub, top, bot,
      front, back, left, right] <;>
    ring

theorem corner_height_nonneg (R : RenderConsts) (tile : Tile) (raised : Bool)
    (hY : 0 < R.Y_COORDS_PER_TILE) (hb : 0 ≤ tile.base_height) (hr : 0 ≤ tile.ramp_height) :
    0 ≤ corner_height R tile raised := by
  have hb' : (0 : ℚ) ≤ tile.base_height := by exact_mod_cast hb
  have hr' : (0 : ℚ) ≤ tile.ramp_height := by exact_mod_cast hr
  unfold corner_height
  cases raised
  · simp only [Bool.false_eq_true, if_false, add_zero]
    positivity
  · simp only [if_true]
    positivity

/-- For every tile with nonnegative base and ramp heights and positive tile
extents, the windings of the top, bottom and front faces agree with their
stored normals and those of the back, left and right faces are opposite to
them. -/
theorem face_orientation_signs (R : RenderConsts) (E : TileTypes) (tile : Tile) (r c : Nat)
    (hX : 0 < R.X_COORDS_PER_TILE) (hY : 0 < R.Y_COORDS_PER_TILE)
    (hZ : 0 < R.Z_COORDS_PER_TILE) (hb : 0 ≤ tile.base_height) (hr : 0 ≤ tile.ramp_height) :
    (0 < orientation_first (top R E tile r c) ∧ 0 < orientation_second (top R E tile r c))
      ∧ (0 < orientation_first (bot R tile r c) ∧ 0 < orientation_second (bot R tile r c))
      ∧ (0 < orientation_first (front R E tile r c)
        ∧ 0 < orientation_second (front R E tile r c))
      ∧ (orientation_first (back R E tile r c) < 0
        ∧ orientation_second (back R E tile r c) < 0)
      ∧ (orientation_first (left R E tile r c) < 0
        ∧ orientation_second (left R E tile r c) < 0)
      ∧ (orientation_first (right R E tile r c) < 0
        ∧ orientation_second (right R E tile r c) < 0) := by
  obtain ⟨⟨t1, t2⟩, ⟨b1, b2⟩, ⟨f1, f2⟩, ⟨k1, k2⟩, ⟨l1, l2⟩, ⟨r1, r2⟩⟩ :=
    face_orientations R E tile r c
  obtain ⟨h1, h2, h3, h4⟩ := top_pos_y R E tile r c
  have n1 := corner_height_nonneg R tile (top_nw_raised E tile) hY hb hr
  have n2 := corner_height_nonneg R tile (top_ne_raised E tile) hY hb hr
  have n3 := corner_height_nonneg R tile (top_sw_raised E tile) hY hb hr
  have n4 := corner_height_nonneg R tile (top_se_raised E tile) hY hb hr
  rw [← h1] at n1
  rw [← h2] at n2
  rw [← h3] at n3
  rw [← h4] at n4
  rw [t1, t2, b1, b2, f1, f2, k1, k2, l1, l2, r1, r2]
  refine ⟨⟨?_, ?_⟩, ⟨?_, ?_⟩, ⟨?_, ?_⟩, ⟨?_, ?_⟩, ⟨?_, ?_⟩, ⟨?_, ?_⟩⟩ <;>
    first
      | positivity
      | (rw [neg_lt_zero]; positivity)

/-- C20, evaluated on the sample flat tile (base height 2, ramp height 3) at
row 0, column 0 with tile extents 8, 4, 8: the two triangles of the top, bottom
and front faces have a positive dot product with the stored normal, 64, 64 and
96, and those of the back, left and right faces have the negative dot product
-96. -/
theorem side_faces_orientation_sample :
    (0 ≤ sample_flat.base_height ∧ 0 ≤ sample_flat.ramp_height)
      ∧ (orientation_first (top sample_extents sample_types sample_flat 0 0) = 64
        ∧ orientation_second (top sample_extents sample_types sample_flat 0 0) = 64)
      ∧ (orientation_first (bot sample_extents sample_flat 0 0) = 64
        ∧ orientation_second (bot sample_extents sample_flat 0 0) = 64)
      ∧ (orientation_first (front sample_extents sample_types sample_flat 0 0) = 96
        ∧ orientation_second (front sample_extents sample_types sample_flat 0 0) = 96)
      ∧ (orientation_first (back sample_extents sample_types sample_flat 0 0) = -96
        ∧ orientation_second (back sample_extents sample_types sample_flat 0 0) = -96)
      ∧ (orientation_first (left sample_extents sample_types sample_flat 0 0) = -96
        ∧ orientation_second (left sample_extents sample_types sample_flat 0 0) = -96)
      ∧ (orientation_first (right sample_extents sample_types sample_flat 0 0) = -96
        ∧ orientation_second (right sample_extents sample_types sample_flat 0 0) = -96) := by
  refine ⟨⟨by decide, by decide⟩, ⟨?_, ?_⟩, ⟨?_, ?_⟩, ⟨?_, ?_⟩, ⟨?_, ?_⟩, ⟨?_, ?_⟩, ⟨?_, ?_⟩⟩ <;>
    norm_num [orientation_first, orientation_second, vec3_dot, vec3_cross, vec3_sub, top, bot,
      front, back, left, right, top_nw_raised, top_ne_raised, top_sw_raised, top_se_raised,
      sample_flat, sample_types, sample_extents]

/-! ### Independence from `pathable` -/

/-- The six faces do not read the field `pathable`. -/
theorem faces_ignore_pathable (R : RenderConsts) (E : TileTypes) (tile : Tile) (p : Bool)
    (r c : Nat) :
    faces R E { tile with pathable := p } r c = faces R E tile r c := rfl

/-- C21: two tiles that agree on `type`, `base_height`, `top_mat_idx`,
`sides_mat_idx` and `ramp_height`, whatever their fields `pathable`, give the
same six faces, the same sequence of 36 copies, the same 36 vertices
`out[0 .. 35]` and the same array `out` altogether, for every row and
column. -/
theorem R_GL_VerticesFromTile_ignores_pathable (R : RenderConsts) (E : TileTypes)
    (t1 t2 : Tile) (out : Nat → vertex) (r c : Nat) (htype : t1.type = t2.type)
    (hbase : t1.base_height = t2.base_height) (htop : t1.top_mat_idx = t2.top_mat_idx)
    (hsides : t1.sides_mat_idx = t2.sides_mat_idx)
    (hramp : t1.ramp_height = t2.ramp_height) :
    faces R E t1 r c = faces R E t2 r c
      ∧ R_GL_VerticesFromTile_memcpys R E t1 r c = R_GL_VerticesFromTile_memcpys R E t2 r c
      ∧ (List.range 36).map (R_GL_VerticesFromTile R E t1 out r c)
          = (List.range 36).map (R_GL_VerticesFromTile R E t2 out r c)
      ∧ R_GL_VerticesFromTile R E t1 out r c = R_GL_VerticesFromTile R E t2 out r c := by
  have h : t1 = { t2 with pathable := t1.pathable } := by
    cases t1
    cases t2
    simp only at htype hbase htop hsides hramp
    simp only [htype, hbase, htop, hsides, hramp]
  have hfaces : faces R E t1 r c = faces R E t2 r c := by
    rw [h]
    exact faces_ignore_pathable R E t2 t1.pathable r c
  have hcopies : R_GL_VerticesFromTile_memcpys R E t1 r c
      = R_GL_VerticesFromTile_memcpys R E t2 r c := by
    unfold R_GL_VerticesFromTile_memcpys
    rw [hfaces]
  have hout : R_GL_VerticesFromTile R E t1 out r c = R_GL_VerticesFromTile R E t2 out r c := by
    unfold R_GL_VerticesFromTile
    rw [hcopies]
  exact ⟨hfaces, hcopies, by rw [hout], hout⟩

/-- Witness of `R_GL_VerticesFromTile_ignores_pathable`: the sample ramp,
pathable and not pathable, which are different tiles. -/
theorem R_GL_VerticesFromTile_ignores_pathable_witness :
    sample_ramp_ns.pathable ≠ sample_ramp_ns_blocked.pathable
      ∧ faces sample_extents sample_types sample_ramp_ns 3 5
          = faces sample_extents sample_types sample_ramp_ns_blocked 3 5
      ∧ R_GL_VerticesFromTile_memcpys sample_extents sample_types sample_ramp_ns 3 5
          = R_GL_VerticesFromTile_memcpys sample_extents sample_types sample_ramp_ns_blocked 3 5
      ∧ (List.range 36).map
            (R_GL_VerticesFromTile sample_extents sample_types sample_ramp_ns blank_vertices 3 5)
          = (List.range 36).map
            (R_GL_VerticesFromTile sample_extents sample_types sample_ramp_ns_blocked
              blank_vertices 3 5)
      ∧ R_GL_VerticesFromTile sample_extents sample_types sample_ramp_ns blank_vertices 3 5
          = R_GL_VerticesFromTile sample_extents sample_types sample_ramp_ns_blocked
              blank_vertices 3 5 :=
  ⟨by decide,
    R_GL_VerticesFromTile_ignores_pathable sample_extents sample_types sample_ramp_ns
      sample_ramp_ns_blocked blank_vertices 3 5 rfl rfl rfl rfl rfl⟩

end Permafrost
